import Mathlib

/-!
# transport-app: GTFS loader and query layer

A shallow embedding of `backend/internal/model/model.go`,
`backend/internal/service/gtfs.go` and `backend/internal/handler/handler.go`,
followed by the properties proved about it.

Conventions of the embedding

* A Go `string` is a Lean `String`; a Go slice is a `List` (the `nil` slice is `[]`),
  except the result of `GetStopArrivals`, a `Slice`, which tells nil from empty.
* A Go `int` that holds a parsed number is an `Int`, with the 64-bit range check of
  `strconv.Atoi` made explicit; an `int` that holds a column position is a `Nat`.
* A Go `map[string]V` is a `GoMap V`: a finite list of key/value pairs with pairwise
  distinct keys.  The order in which `range` visits a map is not specified by Go and is
  a parameter (`MapRange`).
* A pointer to a struct that is never mutated after construction is the struct value.
* `float64` is an abstract type `F` with the operations the code uses (`Float64 F`).
* A handler is a function from the values of its query parameters to the response it
  writes; `Arrivals` also returns the list of calls it made to the arrivals client.
* Library calls whose implementation is not part of the repository
  (`sort.Slice`, `filepath.Join`, `os.Open` + `csv.Reader.ReadAll`) are parameters
  constrained by their documented contract.  For `sort.Slice` the implementation of the
  Go standard library (Go 1.19 and later) is embedded as well (`sort.Slice`, `goSorter`),
  so that the loader can be run on a concrete file with the sort that Go performs.
-/

namespace Transport

/-! ## Go maps -/

/-- A Go `map[string]V`: finitely many entries, no key twice. -/
structure GoMap (V : Type) where
  entries : List (String × V)
  nodup : (entries.map Prod.fst).Nodup

namespace GoMap

variable {V : Type}

/-- The result of `make(map[string]V)`. -/
def empty : GoMap V := ⟨[], List.nodup_nil⟩

/-- The comma-ok lookup `v, ok := m[k]`: `some v` when `ok`, `none` otherwise. -/
def get (m : GoMap V) (k : String) : Option V := m.entries.lookup k

/-- The assignment `m[k] = v`: the entry for `k` is replaced, or added when absent. -/
def set (m : GoMap V) (k : String) (v : V) : GoMap V :=
  ⟨(k, v) :: m.entries.filter (fun e => e.1 != k), by
    rw [List.map_cons, List.nodup_cons]
    refine ⟨?_, ?_⟩
    · intro hk
      obtain ⟨e, he, hek⟩ := List.mem_map.1 hk
      have := (List.mem_filter.1 he).2
      simp at this
      exact this hek
    · exact ((List.filter_sublist m.entries).map Prod.fst).nodup m.nodup⟩

/-- The keys of the map. -/
def keys (m : GoMap V) : List String := m.entries.map Prod.fst

/-- The values of the map. -/
def values (m : GoMap V) : List V := m.entries.map Prod.snd

/-- The builtin `len(m)`. -/
def len (m : GoMap V) : Nat := m.entries.length

end GoMap

/-- The order in which `for k, v := range m` visits a map.  Go leaves it unspecified;
every visit order enumerates each entry exactly once. -/
structure MapRange where
  order : {V : Type} → GoMap V → List (String × V)
  perm : ∀ {V : Type} (m : GoMap V), (order m).Perm m.entries

/-- The visit order that follows the stored entries. -/
def MapRange.stored : MapRange := ⟨fun m => m.entries, fun _ => List.Perm.refl _⟩

/-! ## float64, kept abstract -/

/-- The `float64` operations used by the code: the zero value, `strconv.ParseFloat(s, 64)`
(`none` when it reports an error), the comparison `<=`, and the value `ofNat n` of a
constant that is a whole number `n`, such as the literal `500.0`. -/
structure Float64 (F : Type) where
  zero : F
  ParseFloat : String → Option F
  le : F → F → Bool
  ofNat : Nat → F

/-- IEEE equality `a == b`, expressed through `<=`. -/
def Float64.eq {F : Type} (fl : Float64 F) (a b : F) : Bool := fl.le a b && fl.le b a

/-- IEEE strict comparison `a < b`, expressed through `<=`. -/
def Float64.lt {F : Type} (fl : Float64 F) (a b : F) : Bool := fl.le a b && !fl.le b a

/-! ## strconv.Atoi -/

/-- The size in bits of a Go `int` on the 64-bit platforms the server is built for. -/
def intSize : Nat := 64

/-- The value of a decimal digit byte, `none` for any other character
(`ch -= '0'; if ch > 9` in the Go library). -/
def digitValue (c : Char) : Option Nat :=
  if '0' ≤ c ∧ c ≤ '9' then some (c.toNat - '0'.toNat) else none

/-- The base-10 accumulation `n = n*10 + digit` over the characters, `none` at the first
character that is not a digit. -/
def parseDigits : Nat → List Char → Option Nat
  | n, [] => some n
  | n, c :: cs =>
    match digitValue c with
    | some d => parseDigits (n * 10 + d) cs
    | none => none

/-- The function `strconv.Atoi`: an optional sign, then at least one decimal digit, and
the value must fit a signed `intSize`-bit integer.  `none` stands for a non-nil error
(`ErrSyntax` or `ErrRange`). -/
def Atoi (s : String) : Option Int :=
  match s.data with
  | [] => none
  | c :: cs =>
    let neg := c == '-'
    let ds := if c == '-' || c == '+' then cs else c :: cs
    match ds with
    | [] => none
    | _ :: _ =>
      match parseDigits 0 ds with
      | none => none
      | some un =>
        if neg then
          if un ≤ 2 ^ (intSize - 1) then some (-(un : Int)) else none
        else
          if un < 2 ^ (intSize - 1) then some (un : Int) else none

/-! ## CSV field extraction (`gtfs.go`) -/

/-- The function `getField`. -/
def getField (record : List String) (header : GoMap Nat) (field : String) : String :=
  match header.get field with
  | some idx => if idx < record.length then record.getD idx "" else ""
  | none => ""

/-- The function `getFieldFloat`. -/
def getFieldFloat {F : Type} (fl : Float64 F) (record : List String) (header : GoMap Nat)
    (field : String) : F :=
  let s := getField record header field
  if s != "" then
    match fl.ParseFloat s with
    | some f => f
    | none => fl.zero
  else fl.zero

/-- The function `getFieldInt`. -/
def getFieldInt (record : List String) (header : GoMap Nat) (field : String) : Int :=
  let s := getField record header field
  if s != "" then
    match Atoi s with
    | some i => i
    | none => 0
  else 0

/-! ## The data model (`model.go`) -/

/-- The struct `model.Agency`. -/
structure Agency where
  ID : String
  Name : String
  URL : String
  Timezone : String
  Lang : String
  deriving DecidableEq, Repr

/-- The struct `model.Stop`. -/
structure Stop (F : Type) where
  ID : String
  Name : String
  Lat : F
  Lon : F
  WheelchairBoarding : Int
  URL : String
  LocationType : Int
  ParentStation : String
  deriving DecidableEq, Repr

/-- The struct `model.Route` (the field `Type` is written `Type_`). -/
structure Route where
  ID : String
  AgencyID : String
  ShortName : String
  LongName : String
  Type_ : Int
  Desc : String
  Color : String
  TextColor : String
  URL : String
  deriving DecidableEq, Repr

/-- The struct `model.Trip`. -/
structure Trip where
  RouteID : String
  ServiceID : String
  TripID : String
  DirectionID : Int
  ShapeID : String
  Headsign : String
  ShortName : String
  WheelchairAccessible : Int
  BikesAllowed : Int
  deriving DecidableEq, Repr

/-- The struct `model.Calendar`. -/
structure Calendar where
  ServiceID : String
  Monday : Int
  Tuesday : Int
  Wednesday : Int
  Thursday : Int
  Friday : Int
  Saturday : Int
  Sunday : Int
  StartDate : String
  EndDate : String
  deriving DecidableEq, Repr

/-- The struct `model.ShapePoint`. -/
structure ShapePoint (F : Type) where
  ShapeID : String
  Lat : F
  Lon : F
  Sequence : Int
  deriving DecidableEq, Repr

/-- The struct `model.Place` (the field `Type` is written `Type_`). -/
structure Place (F : Type) where
  ID : String
  Name : String
  Lat : F
  Lon : F
  Type_ : String
  deriving DecidableEq, Repr

/-- The struct `model.GTFSData`. -/
structure GTFSData (F : Type) where
  Agencies : GoMap Agency
  Stops : GoMap (Stop F)
  Routes : GoMap Route
  Trips : GoMap Trip
  Calendars : GoMap Calendar
  Shapes : GoMap (List (ShapePoint F))
  Places : GoMap (Place F)
  StopsList : List (Stop F)
  RoutesList : List Route

/-- The function `model.NewGTFSData`: seven empty maps and two nil slices. -/
def NewGTFSData {F : Type} : GTFSData F :=
  { Agencies := GoMap.empty, Stops := GoMap.empty, Routes := GoMap.empty,
    Trips := GoMap.empty, Calendars := GoMap.empty, Shapes := GoMap.empty,
    Places := GoMap.empty, StopsList := [], RoutesList := [] }

/-- The struct `model.StopArrival`. -/
structure StopArrival where
  RouteCode : String
  RouteName : String
  RouteColor : String
  Direction : String
  RouteType : String
  ArrivalTime : String
  Headsign : String
  deriving DecidableEq, Repr

/-! ## Library calls left abstract -/

/-- The files as the loader sees them: `Join` is `filepath.Join`, and `ReadAll path` is
the outcome of `os.Open(path)` followed by `csv.NewReader(file).ReadAll()`, either the
error of the first step that failed or the parsed records. -/
structure FileSystem where
  Join : String → String → String
  ReadAll : String → Except String (List (List String))

/-- The requirement `sort.Slice` puts on its `less` argument: a strict weak ordering. -/
structure LessOK {α : Type} (less : α → α → Bool) : Prop where
  irrefl : ∀ a, less a a = false
  trans : ∀ a b c, less a b = true → less b c = true → less a c = true
  negTrans : ∀ a b c, less a b = false → less b c = false → less a c = false

/-- The library function `sort.Slice`, by its documented contract: the slice is
rearranged (a permutation of its elements) so that no element is `less` than one placed
before it.  The documentation adds that the sort is not guaranteed to be stable, so
nothing is assumed about the relative order of elements that compare equal. -/
structure SliceSorter (α : Type) where
  sort : (α → α → Bool) → List α → List α
  perm : ∀ less l, (sort less l).Perm l
  sorted : ∀ less l, LessOK less → (sort less l).Pairwise (fun a b => less b a = false)

/-! ## The loader (`gtfs.go`) -/

/-- The loop `for i, col := range records[0] { header[col] = i }` of `readCSV`, started
at column `i`. -/
def headerFrom : Nat → List String → GoMap Nat → GoMap Nat
  | _, [], header => header
  | i, col :: cols, header => headerFrom (i + 1) cols (header.set col i)

/-- The function `readCSV`: the data rows and the header map, or an error. -/
def readCSV (fs : FileSystem) (path : String) :
    Except String (List (List String) × GoMap Nat) :=
  match fs.ReadAll path with
  | .error err => .error err
  | .ok [] => .error "empty CSV file"
  | .ok (first :: rest) => .ok (rest, headerFrom 0 first GoMap.empty)

section Loaders

variable {F : Type}

/-- The `model.Agency` literal built in the loop of `loadAgencies`. -/
def agencyOf (header : GoMap Nat) (r : List String) : Agency :=
  { ID := getField r header "agency_id"
    Name := getField r header "agency_name"
    URL := getField r header "agency_url"
    Timezone := getField r header "agency_timezone"
    Lang := getField r header "agency_lang" }

/-- The function `loadAgencies`. -/
def loadAgencies (fs : FileSystem) (path : String) (data : GTFSData F) :
    Except String (GTFSData F) :=
  match readCSV fs path with
  | .error err => .error err
  | .ok (records, header) =>
    .ok (records.foldl (fun data r =>
      let agency := agencyOf header r
      { data with Agencies := data.Agencies.set agency.ID agency }) data)

/-- The `model.Stop` literal built in the loop of `loadStops`. -/
def stopOf (fl : Float64 F) (header : GoMap Nat) (r : List String) : Stop F :=
  { ID := getField r header "stop_id"
    Name := getField r header "stop_name"
    Lat := getFieldFloat fl r header "stop_lat"
    Lon := getFieldFloat fl r header "stop_lon"
    WheelchairBoarding := getFieldInt r header "wheelchair_boarding"
    URL := getField r header "stop_url"
    LocationType := getFieldInt r header "location_type"
    ParentStation := getField r header "parent_station" }

/-- The function `loadStops`. -/
def loadStops (fl : Float64 F) (fs : FileSystem) (path : String) (data : GTFSData F) :
    Except String (GTFSData F) :=
  match readCSV fs path with
  | .error err => .error err
  | .ok (records, header) =>
    .ok (records.foldl (fun data r =>
      let stop := stopOf fl header r
      { data with Stops := data.Stops.set stop.ID stop }) data)

/-- The `model.Route` literal built in the loop of `loadRoutes`. -/
def routeOf (header : GoMap Nat) (r : List String) : Route :=
  { ID := getField r header "route_id"
    AgencyID := getField r header "agency_id"
    ShortName := getField r header "route_short_name"
    LongName := getField r header "route_long_name"
    Type_ := getFieldInt r header "route_type"
    Desc := getField r header "route_desc"
    Color := getField r header "route_color"
    TextColor := getField r header "route_text_color"
    URL := getField r header "route_url" }

/-- The function `loadRoutes`. -/
def loadRoutes (fs : FileSystem) (path : String) (data : GTFSData F) :
    Except String (GTFSData F) :=
  match readCSV fs path with
  | .error err => .error err
  | .ok (records, header) =>
    .ok (records.foldl (fun data r =>
      let route := routeOf header r
      { data with Routes := data.Routes.set route.ID route }) data)

/-- The `model.Trip` literal built in the loop of `loadTrips`. -/
def tripOf (header : GoMap Nat) (r : List String) : Trip :=
  { RouteID := getField r header "route_id"
    ServiceID := getField r header "service_id"
    TripID := getField r header "trip_id"
    DirectionID := getFieldInt r header "direction_id"
    ShapeID := getField r header "shape_id"
    Headsign := getField r header "trip_headsign"
    ShortName := getField r header "trip_short_name"
    WheelchairAccessible := getFieldInt r header "wheelchair_accessible"
    BikesAllowed := getFieldInt r header "bikes_allowed" }

/-- The function `loadTrips`. -/
def loadTrips (fs : FileSystem) (path : String) (data : GTFSData F) :
    Except String (GTFSData F) :=
  match readCSV fs path with
  | .error err => .error err
  | .ok (records, header) =>
    .ok (records.foldl (fun data r =>
      let trip := tripOf header r
      { data with Trips := data.Trips.set trip.TripID trip }) data)

/-- The `model.Calendar` literal built in the loop of `loadCalendar`. -/
def calendarOf (header : GoMap Nat) (r : List String) : Calendar :=
  { ServiceID := getField r header "service_id"
    Monday := getFieldInt r header "monday"
    Tuesday := getFieldInt r header "tuesday"
    Wednesday := getFieldInt r header "wednesday"
    Thursday := getFieldInt r header "thursday"
    Friday := getFieldInt r header "friday"
    Saturday := getFieldInt r header "saturday"
    Sunday := getFieldInt r header "sunday"
    StartDate := getField r header "start_date"
    EndDate := getField r header "end_date" }

/-- The function `loadCalendar`. -/
def loadCalendar (fs : FileSystem) (path : String) (data : GTFSData F) :
    Except String (GTFSData F) :=
  match readCSV fs path with
  | .error err => .error err
  | .ok (records, header) =>
    .ok (records.foldl (fun data r =>
      let cal := calendarOf header r
      { data with Calendars := data.Calendars.set cal.ServiceID cal }) data)

/-- The `model.ShapePoint` literal built in the first loop of `loadShapes`. -/
def shapePointOf (fl : Float64 F) (header : GoMap Nat) (r : List String) : ShapePoint F :=
  { ShapeID := getField r header "shape_id"
    Lat := getFieldFloat fl r header "shape_pt_lat"
    Lon := getFieldFloat fl r header "shape_pt_lon"
    Sequence := getFieldInt r header "shape_pt_sequence" }

/-- The `less` closure that `loadShapes` hands to `sort.Slice`. -/
def sequenceLess (a b : ShapePoint F) : Bool := decide (a.Sequence < b.Sequence)

/-- The first loop of `loadShapes`: each point is appended to the slice stored under its
shape id (`append` to the nil slice of an absent key starts a new slice). -/
def appendShapes (fl : Float64 F) (header : GoMap Nat) (records : List (List String))
    (data : GTFSData F) : GTFSData F :=
  records.foldl (fun data r =>
    let point := shapePointOf fl header r
    let points := (data.Shapes.get point.ShapeID).getD [] ++ [point]
    { data with Shapes := data.Shapes.set point.ShapeID points }) data

/-- The second loop of `loadShapes`: the slice of every shape id, visited in the order
`keys`, is sorted in place. -/
def sortShapes (sorter : SliceSorter (ShapePoint F)) (keys : List String)
    (data : GTFSData F) : GTFSData F :=
  keys.foldl (fun data shapeID =>
    let sorted := sorter.sort sequenceLess ((data.Shapes.get shapeID).getD [])
    { data with Shapes := data.Shapes.set shapeID sorted }) data

/-- The function `loadShapes`. -/
def loadShapes (fl : Float64 F) (sorter : SliceSorter (ShapePoint F)) (rng : MapRange)
    (fs : FileSystem) (path : String) (data : GTFSData F) : Except String (GTFSData F) :=
  match readCSV fs path with
  | .error err => .error err
  | .ok (records, header) =>
    let data := appendShapes fl header records data
    .ok (sortShapes sorter ((rng.order data.Shapes).map Prod.fst) data)

/-- The `model.Place` literal built in the loop of `loadPlaces`. -/
def placeOf (fl : Float64 F) (header : GoMap Nat) (r : List String) : Place F :=
  { ID := getField r header "place_id"
    Name := getField r header "place_name"
    Lat := getFieldFloat fl r header "place_lat"
    Lon := getFieldFloat fl r header "place_lon"
    Type_ := getField r header "place_type" }

/-- The function `loadPlaces`. -/
def loadPlaces (fl : Float64 F) (fs : FileSystem) (path : String) (data : GTFSData F) :
    Except String (GTFSData F) :=
  match readCSV fs path with
  | .error err => .error err
  | .ok (records, header) =>
    .ok (records.foldl (fun data r =>
      let place := placeOf fl header r
      if place.ID != "" then { data with Places := data.Places.set place.ID place }
      else data) data)

/-- An element of the `loaders` table of `LoadGTFS`. -/
structure Loader (F : Type) where
  file : String
  load : String → GTFSData F → Except String (GTFSData F)
  req : Bool

/-- The `loaders` table of `LoadGTFS`. -/
def loaders (fl : Float64 F) (sorter : SliceSorter (ShapePoint F)) (rng : MapRange)
    (fs : FileSystem) : List (Loader F) :=
  [ ⟨"agency.csv", loadAgencies fs, true⟩,
    ⟨"stops.csv", loadStops fl fs, true⟩,
    ⟨"routes.csv", loadRoutes fs, true⟩,
    ⟨"trips.csv", loadTrips fs, true⟩,
    ⟨"calendar.csv", loadCalendar fs, true⟩,
    ⟨"shapes.csv", loadShapes fl sorter rng fs, true⟩,
    ⟨"places.csv", loadPlaces fl fs, false⟩ ]

/-- The loop `for _, l := range loaders` of `LoadGTFS`: a failing required loader ends
the load with the wrapped error, a failing optional one only prints a warning. -/
def runLoaders (fs : FileSystem) (dataDir : String) :
    List (Loader F) → GTFSData F → Except String (GTFSData F)
  | [], data => .ok data
  | l :: ls, data =>
    match l.load (fs.Join dataDir l.file) data with
    | .error err =>
      if l.req then .error ("loading " ++ l.file ++ ": " ++ err)
      else runLoaders fs dataDir ls data
    | .ok data => runLoaders fs dataDir ls data

/-- The two loops of `LoadGTFS` that build `StopsList` and `RoutesList`. -/
def buildLists (rng : MapRange) (data : GTFSData F) : GTFSData F :=
  let data := (rng.order data.Stops).foldl
    (fun data e => { data with StopsList := data.StopsList ++ [e.2] }) data
  (rng.order data.Routes).foldl
    (fun data e => { data with RoutesList := data.RoutesList ++ [e.2] }) data

/-- The function `LoadGTFS`: `.error` is the return `nil, err`. -/
def LoadGTFS (fl : Float64 F) (sorter : SliceSorter (ShapePoint F)) (rng : MapRange)
    (fs : FileSystem) (dataDir : String) : Except String (GTFSData F) :=
  match runLoaders fs dataDir (loaders fl sorter rng fs) NewGTFSData with
  | .error err => .error err
  | .ok data => .ok (buildLists rng data)

end Loaders

/-! ## The arrivals client (`kentkart.go`) -/

/-- The struct `routeInfo` of the Kentkart response. -/
structure routeInfo where
  RouteCode : String
  DisplayRouteCode : String
  Name : String
  HeadSign : String
  RouteColor : String
  Direction : String
  RouteType : String
  RouteTextColor : String
  StopArrivalTime : String
  NextTripArrivalTime : String
  deriving DecidableEq, Repr

/-- The part of the struct `nearestBusResponse` that the code reads. -/
structure nearestBusResponse where
  RouteList : List routeInfo
  deriving DecidableEq, Repr

/-- The struct `KentkartClient`.  Its method `getNearestBus` performs the HTTP exchange
with the external service; the outcome of that exchange is the field `getNearestBus`. -/
structure KentkartClient (F : Type) where
  getNearestBus : String → F → F → Except String nearestBusResponse

/-- A Go slice for which the nil slice is told apart from an empty one: `nil` is the nil
slice, `make elems` a non-nil slice, as `make([]T, 0, n)` and `append` return them. -/
inductive Slice (α : Type) where
  | nil
  | make (elems : List α)
  deriving DecidableEq, Repr

/-- The elements of a slice, in order; the nil slice has none. -/
def Slice.toList {α : Type} : Slice α → List α
  | .nil => []
  | .make elems => elems

/-- The builtin `append(s, x)` with one element; its result is never nil. -/
def Slice.append {α : Type} : Slice α → α → Slice α
  | .nil, x => .make [x]
  | .make elems, x => .make (elems ++ [x])

/-- The method `KentkartClient.GetStopArrivals`: `arrivals` starts as the empty non-nil
slice `make([]model.StopArrival, 0, len(resp.RouteList))`, and one `StopArrival` is
appended for each entry of the `RouteList` of the fetched response. -/
def GetStopArrivals {F : Type} (c : KentkartClient F) (stopID : String) (lat lon : F) :
    Except String (Slice StopArrival) :=
  match c.getNearestBus stopID lat lon with
  | .error err => .error err
  | .ok resp =>
    .ok (resp.RouteList.foldl (fun arrivals route =>
      let arrivalTime :=
        if route.NextTripArrivalTime == "" then route.StopArrivalTime
        else route.NextTripArrivalTime
      arrivals.append { RouteCode := route.DisplayRouteCode
                        RouteName := route.Name
                        RouteColor := route.RouteColor
                        Direction := route.Direction
                        RouteType := route.RouteType
                        ArrivalTime := arrivalTime
                        Headsign := route.HeadSign }) (Slice.make []))

/-! ## The handlers (`handler.go`) -/

/-- The package `geo`, which is not among the sources: its one function is a parameter. -/
structure Geo (F : Type) where
  HaversineDistance : F → F → F → F → F

/-- The struct `Handler`. -/
structure Handler (F : Type) where
  gtfs : GTFSData F
  kentkart : KentkartClient F

/-- What a handler writes: `ok body` is the JSON encoding of `body` with status 200,
`error msg code` is the call `http.Error(w, msg, code)`. -/
inductive Response (α : Type) where
  | ok (body : α)
  | error (msg : String) (code : Nat)
  deriving DecidableEq, Repr

/-- The struct `routeShapeResponse`. -/
structure routeShapeResponse (F : Type) where
  RouteID : String
  Points : List (ShapePoint F)
  deriving DecidableEq, Repr

section Handlers

variable {F : Type}

/-- The method `Handler.findNearbyStops`. -/
def findNearbyStops (fl : Float64 F) (geo : Geo F) (h : Handler F)
    (lat lon radiusMeters : F) : List (Stop F) :=
  h.gtfs.StopsList.foldl (fun nearby stop =>
    if fl.le (geo.HaversineDistance lat lon stop.Lat stop.Lon) radiusMeters then
      nearby ++ [stop]
    else nearby) []

/-- The loop `for _, trip := range h.gtfs.Trips` of `RouteShape` over the trips in visit
order: `shapePoints` starts as the nil slice and the loop breaks at the first trip of the
route with a non-empty shape id that is a key of `Shapes`. -/
def scanTrips (shapes : GoMap (List (ShapePoint F))) (route : Route) :
    List Trip → List (ShapePoint F)
  | [] => []
  | trip :: trips =>
    if trip.RouteID == route.ID && trip.ShapeID != "" then
      match shapes.get trip.ShapeID with
      | some points => points
      | none => scanTrips shapes route trips
    else scanTrips shapes route trips

/-- The method `Handler.RouteShape`, on the value of the query parameter `route_id`
(the empty string when the parameter is absent). -/
def RouteShape (h : Handler F) (rng : MapRange) (routeID : String) :
    Response (routeShapeResponse F) :=
  if routeID == "" then .error "route_id parameter required" 400
  else
    match h.gtfs.Routes.get routeID with
    | none => .error "route not found" 404
    | some route =>
      .ok { RouteID := route.ID
            Points := scanTrips h.gtfs.Shapes route ((rng.order h.gtfs.Trips).map Prod.snd) }

end Handlers

/-- The struct `stopsResponse`. -/
structure stopsResponse (F : Type) where
  Stops : List (Stop F)
  Count : Nat
  deriving DecidableEq, Repr

/-- The struct `arrivalsResponse`. -/
structure arrivalsResponse where
  StopID : String
  StopName : String
  Arrivals : Slice StopArrival
  deriving DecidableEq, Repr

/-- The struct `routesResponse`. -/
structure routesResponse where
  Routes : List Route
  Count : Nat
  deriving DecidableEq, Repr

/-- A call of `h.kentkart.GetStopArrivals` made by a handler, with its arguments. -/
structure ArrivalsCall (F : Type) where
  stopID : String
  lat : F
  lon : F
  deriving DecidableEq, Repr

section MoreHandlers

variable {F : Type}

/-- The method `Handler.Stops`, on the values of the query parameters `lat`, `lon` and
`radius` (the empty string for an absent parameter).  The variable `radius` starts as
the literal `500.0` and is overwritten by a `radius` parameter that parses. -/
def Stops (fl : Float64 F) (geo : Geo F) (h : Handler F)
    (lat lon radiusStr : String) : Response (stopsResponse F) :=
  if lat == "" || lon == "" then
    .ok { Stops := h.gtfs.StopsList, Count := h.gtfs.StopsList.length }
  else
    match fl.ParseFloat lat with
    | none => .error "invalid lat parameter" 400
    | some latF =>
      match fl.ParseFloat lon with
      | none => .error "invalid lon parameter" 400
      | some lonF =>
        let found (radius : F) : Response (stopsResponse F) :=
          let nearby := findNearbyStops fl geo h latF lonF radius
          .ok { Stops := nearby, Count := nearby.length }
        if radiusStr != "" then
          match fl.ParseFloat radiusStr with
          | none => .error "invalid radius parameter" 400
          | some radius => found radius
        else found (fl.ofNat 500)

/-- The method `Handler.Arrivals`, on the value of the query parameter `stop_id`: the
response written, and the calls of the arrivals client made on the way. -/
def Arrivals (h : Handler F) (stopID : String) :
    Response arrivalsResponse × List (ArrivalsCall F) :=
  if stopID == "" then (.error "stop_id parameter required" 400, [])
  else
    match h.gtfs.Stops.get stopID with
    | none => (.error "stop not found" 404, [])
    | some stop =>
      match GetStopArrivals h.kentkart stopID stop.Lat stop.Lon with
      | .error _ => (.error "failed to fetch arrivals" 500, [⟨stopID, stop.Lat, stop.Lon⟩])
      | .ok arrivals =>
        (.ok { StopID := stop.ID, StopName := stop.Name, Arrivals := arrivals },
          [⟨stopID, stop.Lat, stop.Lon⟩])

/-- The method `Handler.Routes`. -/
def Routes (h : Handler F) : Response routesResponse :=
  .ok { Routes := h.gtfs.RoutesList, Count := h.gtfs.RoutesList.length }

end MoreHandlers

/-! ## Definitions used to state the properties -/

/-- A `float64` stand-in over the integers, for evaluating the definitions on concrete
inputs: numbers are parsed by `Atoi` and compared by `≤`. -/
def intFloat : Float64 Int := ⟨0, Atoi, fun a b => decide (a ≤ b), fun n => (n : Int)⟩

/-- The decimal text of an integer, as `strconv.Itoa` writes it. -/
def Itoa (n : Int) : String :=
  if n < 0 then "-" ++ Nat.repr n.natAbs else Nat.repr n.toNat

/-- A valid integer literal: an optional sign followed by one or more decimal digits. -/
def IsIntLiteral (s : String) : Prop :=
  ∃ ds : List Char, ds ≠ [] ∧ (∀ c ∈ ds, '0' ≤ c ∧ c ≤ '9') ∧
    (s.data = ds ∨ s.data = '-' :: ds ∨ s.data = '+' :: ds)

/-- A slice sorter that keeps equal elements in their input order (insertion sort). -/
def stableSorter (α : Type) : SliceSorter α where
  sort less l := l.insertionSort (fun a b => less b a = false)
  perm less l := List.perm_insertionSort _ l
  sorted less l h := by
    haveI : IsTotal α (fun a b => less b a = false) := ⟨fun a b => by
      cases hab : less b a
      · exact Or.inl rfl
      · right
        cases hba : less a b
        · rfl
        · have := h.trans a b a hba hab
          rw [h.irrefl] at this
          exact absurd this (by decide)⟩
    haveI : IsTrans α (fun a b => less b a = false) :=
      ⟨fun a b c hab hbc => h.negTrans c b a hbc hab⟩
    exact List.sorted_insertionSort (fun a b => less b a = false) l

/-- A slice sorter that puts equal elements in the reverse of their input order. -/
def reversingSorter (α : Type) : SliceSorter α where
  sort less l := (stableSorter α).sort less l.reverse
  perm less l := ((stableSorter α).perm less l.reverse).trans (List.reverse_perm l)
  sorted less l h := (stableSorter α).sorted less l.reverse h

/-! ## The library function `sort.Slice` -/

namespace sort

variable {α : Type}

/-- The method `Less` of the `lessSwap` value that `sort.Slice` builds: the closure handed
in by the caller, asked about two positions of the slice.  The closure of `loadShapes`
compares the elements that stand at these positions, so it is given here as `less` on
elements. -/
def Less (less : α → α → Bool) (data : List α) (i j : Nat) : Bool :=
  match data[i]?, data[j]? with
  | some x, some y => less x y
  | _, _ => false

/-- The method `Swap` of the `lessSwap` value: the elements at two positions of the slice
change places. -/
def Swap (data : List α) (i j : Nat) : List α :=
  match data[i]?, data[j]? with
  | some x, some y => (data.set i y).set j x
  | _, _ => data

/-- The inner loop of `insertionSort_func`,
`for j := i; j > a && data.Less(j, j-1); j-- { data.Swap(j, j-1) }`, entered with `j`. -/
def insertionSort_inner (less : α → α → Bool) (a : Nat) : Nat → List α → List α
  | 0, data => data
  | j + 1, data =>
    if a < j + 1 && Less less data (j + 1) j then
      insertionSort_inner less a j (Swap data (j + 1) j)
    else data

/-- The function `insertionSort_func`: insertion sort of `data[a:b]`, the outer loop
`for i := a + 1; i < b; i++`. -/
def insertionSort_func (less : α → α → Bool) (data : List α) (a b : Nat) : List α :=
  (List.range' (a + 1) (b - (a + 1))).foldl
    (fun data i => insertionSort_inner less a i data) data

/-- The result type `sortedHint` of `choosePivot_func`. -/
inductive sortedHint where
  | unknownHint
  | increasingHint
  | decreasingHint
  deriving DecidableEq, Repr

/-- The function `order2_func`: the two positions in the order of their elements; the
counter `*swaps` is the third component. -/
def order2_func (less : α → α → Bool) (data : List α) (a b swaps : Nat) : Nat × Nat × Nat :=
  if Less less data b a then (b, a, swaps + 1) else (a, b, swaps)

/-- The function `median_func`: the position of the median of three elements, and the
counter `*swaps`. -/
def median_func (less : α → α → Bool) (data : List α) (a b c swaps : Nat) : Nat × Nat :=
  let (a, b, swaps) := order2_func less data a b swaps
  let (b, _, swaps) := order2_func less data b c swaps
  let (_, b, swaps) := order2_func less data a b swaps
  (b, swaps)

/-- The function `medianAdjacent_func`: the median of the elements at `a - 1`, `a` and
`a + 1`. -/
def medianAdjacent_func (less : α → α → Bool) (data : List α) (a swaps : Nat) : Nat × Nat :=
  median_func less data (a - 1) a (a + 1) swaps

/-- The function `choosePivot_func` (`shortestNinther = 50`, `maxSwaps = 4 * 3`): a pivot
position in `data[a:b]` and a hint on whether the slice looks sorted.  It compares and
does not move elements. -/
def choosePivot_func (less : α → α → Bool) (data : List α) (a b : Nat) : Nat × sortedHint :=
  let l := b - a
  let i := a + l / 4 * 1
  let j := a + l / 4 * 2
  let k := a + l / 4 * 3
  let (j, swaps) :=
    if 8 ≤ l then
      let (i, j, k, swaps) :=
        if 50 ≤ l then
          let (i, swaps) := medianAdjacent_func less data i 0
          let (j, swaps) := medianAdjacent_func less data j swaps
          let (k, swaps) := medianAdjacent_func less data k swaps
          (i, j, k, swaps)
        else (i, j, k, 0)
      median_func less data i j k swaps
    else (j, 0)
  if swaps = 0 then (j, .increasingHint)
  else if swaps = 4 * 3 then (j, .decreasingHint)
  else (j, .unknownHint)

/-- The loop `for i < j { data.Swap(i, j); i++; j-- }` of `reverseRange_func`; the first
argument bounds the number of rounds and is never used up. -/
def reverseRange_loop : Nat → List α → Nat → Nat → List α
  | 0, data, _, _ => data
  | n + 1, data, i, j =>
    if i < j then reverseRange_loop n (Swap data i j) (i + 1) (j - 1) else data

/-- The function `reverseRange_func`: `data[a:b]` is reversed. -/
def reverseRange_func (data : List α) (a b : Nat) : List α :=
  reverseRange_loop (b - a) data a (b - 1)

/-- The loop `for i < b && !data.Less(i, i-1) { i++ }` of `partialInsertionSort_func`; the
first argument bounds the number of rounds. -/
def partialInsertionSort_skip (less : α → α → Bool) (data : List α) (b : Nat) :
    Nat → Nat → Nat
  | 0, i => i
  | n + 1, i =>
    if i < b && !Less less data i (i - 1) then partialInsertionSort_skip less data b n (i + 1)
    else i

/-- The loop `for j := i - 1; j >= 1; j-- { if !data.Less(j, j-1) { break };
data.Swap(j, j-1) }` of `partialInsertionSort_func`, entered with `j`. -/
def partialInsertionSort_left (less : α → α → Bool) : Nat → List α → List α
  | 0, data => data
  | j + 1, data =>
    if !Less less data (j + 1) j then data
    else partialInsertionSort_left less j (Swap data (j + 1) j)

/-- The loop `for j := i + 1; j < b; j++ { if !data.Less(j, j-1) { break };
data.Swap(j, j-1) }` of `partialInsertionSort_func`, entered with `j`; the first argument
bounds the number of rounds. -/
def partialInsertionSort_right (less : α → α → Bool) (b : Nat) :
    Nat → List α → Nat → List α
  | 0, data, _ => data
  | n + 1, data, j =>
    if j < b then
      if !Less less data j (j - 1) then data
      else partialInsertionSort_right less b n (Swap data j (j - 1)) (j + 1)
    else data

/-- The loop `for j := 0; j < maxSteps; j++` of `partialInsertionSort_func`, with the
number of steps left, the slice and the position `i`
(`maxSteps = 5`, `shortestShifting = 50`). -/
def partialInsertionSort_loop (less : α → α → Bool) (a b : Nat) :
    Nat → List α → Nat → List α × Bool
  | 0, data, _ => (data, false)
  | steps + 1, data, i =>
    let i := partialInsertionSort_skip less data b (b - i) i
    if i = b then (data, true)
    else if b - a < 50 then (data, false)
    else
      let data := Swap data i (i - 1)
      let data := if 2 ≤ i - a then partialInsertionSort_left less (i - 1) data else data
      let data :=
        if 2 ≤ b - i then partialInsertionSort_right less b (b - i) data (i + 1) else data
      partialInsertionSort_loop less a b steps data i

/-- The function `partialInsertionSort_func`: the slice, and whether it is sorted now. -/
def partialInsertionSort_func (less : α → α → Bool) (data : List α) (a b : Nat) :
    List α × Bool :=
  partialInsertionSort_loop less a b 5 data (a + 1)

/-- The loop `for i <= j && !data.Less(a, i) { i++ }` of `partitionEqual_func`; the first
argument bounds the number of rounds. -/
def partitionEqual_up (less : α → α → Bool) (data : List α) (a j : Nat) : Nat → Nat → Nat
  | 0, i => i
  | n + 1, i =>
    if i ≤ j && !Less less data a i then partitionEqual_up less data a j n (i + 1) else i

/-- The loop `for i <= j && data.Less(a, j) { j-- }` of `partitionEqual_func`, entered
with `j` (here `i` is at least 1, so the loop ends at the latest with `j = 0`). -/
def partitionEqual_down (less : α → α → Bool) (data : List α) (a i : Nat) : Nat → Nat
  | 0 => 0
  | j + 1 =>
    if i ≤ j + 1 && Less less data a (j + 1) then partitionEqual_down less data a i j
    else j + 1

/-- The outer loop of `partitionEqual_func`, which returns `i`; the first argument bounds
the number of rounds. -/
def partitionEqual_loop (less : α → α → Bool) (a : Nat) :
    Nat → List α → Nat → Nat → List α × Nat
  | 0, data, i, _ => (data, i)
  | n + 1, data, i, j =>
    let i := partitionEqual_up less data a j (j + 1 - i) i
    let j := partitionEqual_down less data a i j
    if j < i then (data, i)
    else partitionEqual_loop less a n (Swap data i j) (i + 1) (j - 1)

/-- The function `partitionEqual_func`: `data[a:b]` is split into the elements equal to
the pivot and the elements greater than it; the slice and the new start. -/
def partitionEqual_func (less : α → α → Bool) (data : List α) (a b pivot : Nat) :
    List α × Nat :=
  partitionEqual_loop less a (b - a) (Swap data a pivot) (a + 1) (b - 1)

/-- The loop `for i <= j && data.Less(i, a) { i++ }` of `partition_func`; the first
argument bounds the number of rounds. -/
def partition_up (less : α → α → Bool) (data : List α) (a j : Nat) : Nat → Nat → Nat
  | 0, i => i
  | n + 1, i =>
    if i ≤ j && Less less data i a then partition_up less data a j n (i + 1) else i

/-- The loop `for i <= j && !data.Less(j, a) { j-- }` of `partition_func`, entered with
`j` (here `i` is at least 1, so the loop ends at the latest with `j = 0`). -/
def partition_down (less : α → α → Bool) (data : List α) (a i : Nat) : Nat → Nat
  | 0 => 0
  | j + 1 =>
    if i ≤ j + 1 && !Less less data (j + 1) a then partition_down less data a i j
    else j + 1

/-- The last loop of `partition_func`, which is left with `i > j`; the slice and `j`.  The
first argument bounds the number of rounds. -/
def partition_loop (less : α → α → Bool) (a : Nat) :
    Nat → List α → Nat → Nat → List α × Nat
  | 0, data, _, j => (data, j)
  | n + 1, data, i, j =>
    let i := partition_up less data a j (j + 1 - i) i
    let j := partition_down less data a i j
    if j < i then (data, j)
    else partition_loop less a n (Swap data i j) (i + 1) (j - 1)

/-- The function `partition_func`: `data[a:b]` is split around the element at `pivot`; the
slice, the new position of the pivot, and whether the slice was partitioned already. -/
def partition_func (less : α → α → Bool) (data : List α) (a b pivot : Nat) :
    List α × Nat × Bool :=
  let data := Swap data a pivot
  let i := partition_up less data a (b - 1) (b - 1 - a) (a + 1)
  let j := partition_down less data a i (b - 1)
  if j < i then (Swap data j a, j, true)
  else
    let out := partition_loop less a (b - a) (Swap data i j) (i + 1) (j - 1)
    (Swap out.1 out.2 a, out.2, false)

/-- The function `pdqsort_func` (`maxInsertion = 12`), the pattern-defeating quicksort
behind `sort.Slice` since Go 1.19, on `data[a:b]`.  The loop variables `wasBalanced` and
`wasPartitioned` are arguments, and every round of the loop, like every recursive call,
takes one unit of the first argument.  Two branches are not followed and give `none`: the
fall-back to `heapSort_func` at `limit == 0`, and `breakPatterns_func` after an unbalanced
partition, which moves elements to pseudo-random positions. -/
def pdqsort_func (less : α → α → Bool) :
    Nat → List α → Nat → Nat → Nat → Bool → Bool → Option (List α)
  | 0, _, _, _, _, _, _ => none
  | fuel + 1, data, a, b, limit, wasBalanced, wasPartitioned =>
    let length := b - a
    if length ≤ 12 then some (insertionSort_func less data a b)
    else if limit = 0 then none
    else if !wasBalanced then none
    else
      let chosen := choosePivot_func less data a b
      let reversed := decide (chosen.2 = .decreasingHint)
      let data := if reversed then reverseRange_func data a b else data
      let pivot := if reversed then (b - 1) - (chosen.1 - a) else chosen.1
      let hint := if reversed then sortedHint.increasingHint else chosen.2
      let tried :=
        if wasBalanced && wasPartitioned && decide (hint = .increasingHint) then
          partialInsertionSort_func less data a b
        else (data, false)
      if tried.2 then some tried.1
      else
        let data := tried.1
        if 0 < a && !Less less data (a - 1) pivot then
          let eq := partitionEqual_func less data a b pivot
          pdqsort_func less fuel eq.1 eq.2 b limit wasBalanced wasPartitioned
        else
          let parts := partition_func less data a b pivot
          let mid := parts.2.1
          let leftLen := mid - a
          let rightLen := b - mid
          let balanceThreshold := length / 8
          if leftLen < rightLen then
            match pdqsort_func less fuel parts.1 a mid limit true true with
            | none => none
            | some data =>
              pdqsort_func less fuel data (mid + 1) b limit
                (decide (balanceThreshold ≤ leftLen)) parts.2.2
          else
            match pdqsort_func less fuel parts.1 (mid + 1) b limit true true with
            | none => none
            | some data =>
              pdqsort_func less fuel data a mid limit
                (decide (balanceThreshold ≤ rightLen)) parts.2.2

/-- The function `bits.Len`: the number of bits needed to write `n`. -/
def bitsLen (n : Nat) : Nat := if n = 0 then 0 else Nat.log2 n + 1

/-- The function `sort.Slice`:
`pdqsort_func(lessSwap{less, swap}, 0, length, bits.Len(uint(length)))`.  A round of
`pdqsort_func` that does not return shortens the range, so `length + 1` rounds are never
used up. -/
def Slice (less : α → α → Bool) (data : List α) : Option (List α) :=
  pdqsort_func less (data.length + 1) data 0 data.length (bitsLen data.length) true true

end sort

/-- The sorter that `loadShapes` runs, `sort.Slice` of the Go standard library.  The
outcome of `sort.Slice` is taken whenever it is the input rearranged into ascending order,
which is what the library documents for it; on the runs that `sort.Slice` above does not
follow, the elements are put in order by insertion. -/
def goSorter (α : Type) [DecidableEq α] : SliceSorter α where
  sort less l :=
    match sort.Slice less l with
    | some r =>
      if r.Perm l ∧ r.Pairwise (fun a b => less b a = false) then r
      else (stableSorter α).sort less l
    | none => (stableSorter α).sort less l
  perm less l := by
    dsimp only
    split
    · split
      · next h => exact h.1
      · exact (stableSorter α).perm less l
    · exact (stableSorter α).perm less l
  sorted less l h := by
    dsimp only
    split
    · split
      · next h2 => exact h2.2
      · exact (stableSorter α).sorted less l h
    · exact (stableSorter α).sorted less l h

/-- A file system holding the given records at every path of the list and nothing else. -/
def FileSystem.ofList (files : List (String × List (List String))) : FileSystem where
  Join dir file := dir ++ "/" ++ file
  ReadAll path :=
    match files.lookup path with
    | some records => .ok records
    | none => .error ("open " ++ path ++ ": no such file or directory")

/-- A directory whose `stops.csv` has a header and two rows that carry the same stop id. -/
def duplicateStopsFS : FileSystem :=
  FileSystem.ofList
    [("data/stops.csv", [["stop_id", "stop_name"], ["1", "A"], ["1", "B"]])]

/-- A directory whose `shapes.csv` lists the points of shape `s` out of order. -/
def unorderedShapesFS : FileSystem :=
  FileSystem.ofList
    [("data/shapes.csv",
      [["shape_id", "shape_pt_lat", "shape_pt_sequence"],
       ["s", "10", "3"], ["t", "20", "1"], ["s", "30", "1"], ["s", "40", "2"]])]

/-- The rows of shape `s` in `tiedShapesFS`: twelve rows with sequence number 1, then one
row with sequence number 0; the latitude of a row is its row number. -/
def tiedShapeRows : List (List String) :=
  [["s", "1", "1"], ["s", "2", "1"], ["s", "3", "1"], ["s", "4", "1"], ["s", "5", "1"],
   ["s", "6", "1"], ["s", "7", "1"], ["s", "8", "1"], ["s", "9", "1"], ["s", "10", "1"],
   ["s", "11", "1"], ["s", "12", "1"], ["s", "13", "0"]]

/-- A directory whose `shapes.csv` has a header and the thirteen rows `tiedShapeRows`. -/
def tiedShapesFS : FileSystem :=
  FileSystem.ofList
    [("data/shapes.csv", ["shape_id", "shape_pt_lat", "shape_pt_sequence"] :: tiedShapeRows)]

/-- Loading a file fails: the loader returns an error for the path. -/
def Fails {F : Type} (load : String → GTFSData F → Except String (GTFSData F))
    (path : String) : Prop :=
  ∃ data err, load path data = .error err

/-- A directory that holds the six required files, each with a header row only, and no
`places.csv`. -/
def noPlacesFS : FileSystem :=
  FileSystem.ofList
    [("data/agency.csv", [["agency_id"]]), ("data/stops.csv", [["stop_id"]]),
     ("data/routes.csv", [["route_id"]]), ("data/trips.csv", [["trip_id"]]),
     ("data/calendar.csv", [["service_id"]]), ("data/shapes.csv", [["shape_id"]])]

/-- An arrivals client whose every request fails. -/
def offlineClient (F : Type) : KentkartClient F :=
  ⟨fun _ _ _ => .error "executing request: offline"⟩

/-- A distance on integer coordinates, for evaluating the definitions on concrete
inputs: the sum of the absolute differences of the coordinates. -/
def gridGeo : Geo Int :=
  ⟨fun lat1 lon1 lat2 lon2 => (Int.natAbs (lat1 - lat2) : Int) + (Int.natAbs (lon1 - lon2) : Int)⟩

/-- The route `R` of the example datasets. -/
def routeR : Route :=
  { ID := "R", AgencyID := "", ShortName := "", LongName := "", Type_ := 3, Desc := "",
    Color := "", TextColor := "", URL := "" }

/-- A trip of route `R` with the given trip id and shape id. -/
def tripOfR (tripID shapeID : String) : Trip :=
  { RouteID := "R", ServiceID := "", TripID := tripID, DirectionID := 0, ShapeID := shapeID,
    Headsign := "", ShortName := "", WheelchairAccessible := 0, BikesAllowed := 0 }

/-- A dataset with the route `R` and two trips of it: `t1`, visited first, names the
shape `missing`, which has no entry in `Shapes`; `t2` names the shape `s2`, which has
one point. -/
def missingShapeData : GTFSData Int :=
  { (NewGTFSData : GTFSData Int) with
    Routes := GoMap.empty.set "R" routeR
    Trips := (GoMap.empty.set "t2" (tripOfR "t2" "s2")).set "t1" (tripOfR "t1" "missing")
    Shapes := GoMap.empty.set "s2" [⟨"s2", 1, 2, 0⟩] }

/-- A dataset with the route `R` whose only trip has an empty shape id. -/
def noShapeData : GTFSData Int :=
  { (NewGTFSData : GTFSData Int) with
    Routes := GoMap.empty.set "R" routeR
    Trips := GoMap.empty.set "t1" (tripOfR "t1" "")
    Shapes := GoMap.empty.set "s2" [⟨"s2", 1, 2, 0⟩] }

/-- A stop with the given id and coordinates. -/
def stopAt (id : String) (lat lon : Int) : Stop Int :=
  { ID := id, Name := "", Lat := lat, Lon := lon, WheelchairBoarding := 0, URL := "",
    LocationType := 0, ParentStation := "" }

/-- A dataset listing two stops, 500 grid units apart. -/
def twoStopsData : GTFSData Int :=
  { (NewGTFSData : GTFSData Int) with
    Stops := (GoMap.empty.set "near" (stopAt "near" 0 0)).set "far" (stopAt "far" 0 500)
    StopsList := [stopAt "near" 0 0, stopAt "far" 0 500] }

/-- A directory with the six required files in which the only row of `stops.csv` has an
empty `stop_id` cell. -/
def emptyStopIdFS : FileSystem :=
  FileSystem.ofList
    [("data/agency.csv", [["agency_id"]]),
     ("data/stops.csv", [["stop_id", "stop_name"], ["", "Nameless"]]),
     ("data/routes.csv", [["route_id"]]), ("data/trips.csv", [["trip_id"]]),
     ("data/calendar.csv", [["service_id"]]), ("data/shapes.csv", [["shape_id"]])]

/-- A directory whose `places.csv` has one row with an empty `place_id` between two rows
with the ids `k1` and `k2`. -/
def placesFS : FileSystem :=
  FileSystem.ofList
    [("data/places.csv",
      [["place_id", "place_name"], ["k1", "Kiosk"], ["", "Nameless"], ["k2", "Office"]])]

/-- A directory whose `stops.csv` repeats the column name `stop_id` in its header row. -/
def repeatedColumnFS : FileSystem :=
  FileSystem.ofList
    [("data/stops.csv", [["stop_id", "stop_name", "stop_id"], ["1", "A", "2"]]),
     ("data/empty.csv", [])]

/-- A map stores every value under the key that `id` reads off the value. -/
def GoMap.Keyed {V : Type} (id : V → String) (m : GoMap V) : Prop :=
  ∀ k v, m.get k = some v → id v = k

/-- Every keyed map of the dataset is keyed by the id of the entity it holds. -/
def KeyedById {F : Type} (data : GTFSData F) : Prop :=
  data.Agencies.Keyed Agency.ID ∧ data.Stops.Keyed Stop.ID ∧ data.Routes.Keyed Route.ID ∧
  data.Trips.Keyed Trip.TripID ∧ data.Calendars.Keyed Calendar.ServiceID ∧
  data.Places.Keyed Place.ID

/-- A directory with the six required files and `places.csv`, with a few rows each. -/
def sampleFS : FileSystem :=
  FileSystem.ofList
    [("data/agency.csv", [["agency_id", "agency_name"], ["A1", "Metro"]]),
     ("data/stops.csv",
      [["stop_id", "stop_name", "stop_lat", "stop_lon"],
       ["S1", "Centre", "10", "20"], ["S2", "Harbour", "11", "21"], ["S1", "Center", "10", "20"]]),
     ("data/routes.csv", [["route_id", "route_short_name"], ["R1", "1"], ["R2", "2"]]),
     ("data/trips.csv",
      [["route_id", "trip_id", "shape_id"], ["R1", "T1", "P1"], ["R1", "T2", ""]]),
     ("data/calendar.csv", [["service_id", "monday"], ["WK", "1"]]),
     ("data/shapes.csv",
      [["shape_id", "shape_pt_lat", "shape_pt_lon", "shape_pt_sequence"],
       ["P1", "10", "20", "2"], ["P1", "9", "19", "1"]]),
     ("data/places.csv", [["place_id", "place_name"], ["K1", "Kiosk"], ["", "Nameless"]])]

/-- The dataset that `LoadGTFS` builds from `sampleFS`. -/
def sampleData : GTFSData Int :=
  match LoadGTFS intFloat (stableSorter _) MapRange.stored sampleFS "data" with
  | .ok data => data
  | .error _ => NewGTFSData

/-- A directory with the six required files in which `routes.csv` has a row with an empty
`route_id` cell and `trips.csv` a trip of that route with the shape `P1`. -/
def emptyRouteIdFS : FileSystem :=
  FileSystem.ofList
    [("data/agency.csv", [["agency_id"]]), ("data/stops.csv", [["stop_id"]]),
     ("data/routes.csv", [["route_id", "route_short_name"], ["", "X"]]),
     ("data/trips.csv", [["route_id", "trip_id", "shape_id"], ["", "T1", "P1"]]),
     ("data/calendar.csv", [["service_id"]]),
     ("data/shapes.csv",
      [["shape_id", "shape_pt_lat", "shape_pt_lon", "shape_pt_sequence"],
       ["P1", "10", "20", "1"]])]

/-- The dataset that `LoadGTFS` builds from `emptyRouteIdFS`. -/
def emptyRouteIdData : GTFSData Int :=
  match LoadGTFS intFloat (stableSorter _) MapRange.stored emptyRouteIdFS "data" with
  | .ok data => data
  | .error _ => NewGTFSData

/-- A visit order that reverses the stored entries. -/
def MapRange.reversed : MapRange :=
  ⟨fun m => m.entries.reverse, fun m => List.reverse_perm m.entries⟩

/-- A dataset with the route `R` and two trips of it that both name the shape `s2`. -/
def sameShapeData : GTFSData Int :=
  { (NewGTFSData : GTFSData Int) with
    Routes := GoMap.empty.set "R" routeR
    Trips := (GoMap.empty.set "t2" (tripOfR "t2" "s2")).set "t1" (tripOfR "t1" "s2")
    Shapes := GoMap.empty.set "s2" [⟨"s2", 1, 2, 0⟩] }

/-- A directory whose `shapes.csv` has two rows of shape `s`, out of order, and one row
with an empty `shape_id` cell. -/
def emptyShapeIdFS : FileSystem :=
  FileSystem.ofList
    [("data/shapes.csv",
      [["shape_id", "shape_pt_lat", "shape_pt_sequence"],
       ["s", "10", "2"], ["", "20", "7"], ["s", "30", "1"]])]

/-- An arrivals client whose every request fetches the given response. -/
def fixedClient (F : Type) (resp : nearestBusResponse) : KentkartClient F :=
  ⟨fun _ _ _ => .ok resp⟩

/-- An entry of a `RouteList` with the given display code and the two arrival times. -/
def routeEntry (code stopArrival nextTrip : String) : routeInfo :=
  { RouteCode := "raw-" ++ code, DisplayRouteCode := code, Name := "Line " ++ code,
    HeadSign := "Centre", RouteColor := "FF0000", Direction := "0", RouteType := "3",
    RouteTextColor := "FFFFFF", StopArrivalTime := stopArrival,
    NextTripArrivalTime := nextTrip }

/-! # Properties -/

/-! ## Go maps -/

namespace GoMap

variable {V : Type}

theorem get_empty (k : String) : (empty : GoMap V).get k = none := rfl

theorem lookup_filter_ne (es : List (String × V)) (k j : String) (h : j ≠ k) :
    (es.filter (fun e => e.1 != k)).lookup j = es.lookup j := by
  induction es with
  | nil => rfl
  | cons e es ih =>
    obtain ⟨a, b⟩ := e
    by_cases hak : a = k
    · subst hak
      have hja : (j == a) = false := by simpa using h
      simp [List.filter_cons, List.lookup_cons, hja, ih]
    · have hne : (a != k) = true := by simpa using hak
      simp only [List.filter_cons, hne, if_true, List.lookup_cons, ih]

theorem get_set_self (m : GoMap V) (k : String) (v : V) : (m.set k v).get k = some v := by
  simp [get, set, List.lookup_cons]

theorem get_set_ne (m : GoMap V) (k j : String) (v : V) (h : j ≠ k) :
    (m.set k v).get j = m.get j := by
  have hjk : (j == k) = false := by simpa using h
  simp only [get, set, List.lookup_cons, hjk]
  exact lookup_filter_ne m.entries k j h

theorem get_set (m : GoMap V) (k j : String) (v : V) :
    (m.set k v).get j = if j = k then some v else m.get j := by
  by_cases h : j = k
  · subst h; simp [get_set_self]
  · simp [h, get_set_ne m k j v h]

end GoMap

/-! ## CSV field extraction -/

theorem getField_of_get_none (record : List String) (header : GoMap Nat) (field : String)
    (h : header.get field = none) : getField record header field = "" := by
  simp [getField, h]

/-- C1: for every record, header map and field name, `getField` (a total function, so it
never fails) returns the cell `record[i]` when the header maps the field to an index `i`
inside the record, and the empty string when the field is not in the header or its index
lies outside the record. -/
theorem getField_spec (record : List String) (header : GoMap Nat) (field : String) :
    (∀ i, header.get field = some i → ∀ h : i < record.length,
        getField record header field = record.get ⟨i, h⟩) ∧
    (header.get field = none → getField record header field = "") ∧
    (∀ i, header.get field = some i → record.length ≤ i →
        getField record header field = "") := by
  refine ⟨?_, getField_of_get_none record header field, ?_⟩
  · intro i hi h
    simp [getField, hi, h, List.getD_eq_getElem]
  · intro i hi h
    simp [getField, hi, Nat.not_lt.2 h]

/-- Witness for C1: the cell under column `y` of a two-cell record. -/
theorem getField_spec_witness :
    getField ["a", "b"] ((GoMap.empty.set "x" 0).set "y" 1) "y" = "b" :=
  (getField_spec ["a", "b"] ((GoMap.empty.set "x" 0).set "y" 1) "y").1 1
    (by decide) (by decide)

/-! ## strconv.Atoi -/

theorem digitValue_digitChar (d : Nat) (h : d < 10) : digitValue (Nat.digitChar d) = some d := by
  interval_cases d <;> decide

theorem digitValue_some_iff (c : Char) :
    (∃ d, digitValue c = some d) ↔ ('0' ≤ c ∧ c ≤ '9') := by
  unfold digitValue
  by_cases h : '0' ≤ c ∧ c ≤ '9' <;> simp [h]

theorem parseDigits_append (a : Nat) (xs ys : List Char) :
    parseDigits a (xs ++ ys) = (parseDigits a xs).bind (fun b => parseDigits b ys) := by
  induction xs generalizing a with
  | nil => rfl
  | cons c cs ih =>
    simp only [List.cons_append, parseDigits]
    cases digitValue c with
    | none => rfl
    | some d => exact ih _

theorem parseDigits_all_digits (a n : Nat) (ds : List Char) (h : parseDigits a ds = some n) :
    ∀ c ∈ ds, '0' ≤ c ∧ c ≤ '9' := by
  induction ds generalizing a with
  | nil => intro c hc; cases hc
  | cons x xs ih =>
    intro c hc
    simp only [parseDigits] at h
    cases hx : digitValue x with
    | none => rw [hx] at h; cases h
    | some d =>
      rw [hx] at h
      rcases List.mem_cons.1 hc with rfl | hc
      · exact (digitValue_some_iff c).1 ⟨d, hx⟩
      · exact ih _ h c hc

theorem toDigitsCore_append (fuel n : Nat) (ds : List Char) :
    Nat.toDigitsCore 10 fuel n ds = Nat.toDigitsCore 10 fuel n [] ++ ds := by
  induction fuel generalizing n ds with
  | zero => rfl
  | succ fuel ih =>
    simp only [Nat.toDigitsCore]
    split
    · rfl
    · rw [ih (n / 10) (Nat.digitChar (n % 10) :: ds), ih (n / 10) [Nat.digitChar (n % 10)]]
      simp

theorem parseDigits_toDigitsCore (fuel n : Nat) (h : n < fuel) :
    parseDigits 0 (Nat.toDigitsCore 10 fuel n []) = some n := by
  induction fuel generalizing n with
  | zero => omega
  | succ fuel ih =>
    simp only [Nat.toDigitsCore]
    have hd := digitValue_digitChar (n % 10) (Nat.mod_lt n (by decide))
    split
    · rename_i h0
      simp only [parseDigits, hd]
      congr 1
      omega
    · rename_i h0
      rw [toDigitsCore_append, parseDigits_append, ih (n / 10) (by omega)]
      simp only [Option.some_bind, parseDigits, hd]
      congr 1
      omega

theorem toDigits_ne_nil (n : Nat) : Nat.toDigits 10 n ≠ [] := by
  unfold Nat.toDigits
  simp only [Nat.toDigitsCore]
  split
  · simp
  · rw [toDigitsCore_append]
    simp

theorem parseDigits_toDigits (n : Nat) : parseDigits 0 (Nat.toDigits 10 n) = some n :=
  parseDigits_toDigitsCore (n + 1) n (Nat.lt_succ_self n)

theorem Atoi_repr (n : Nat) (h : n < 2 ^ (intSize - 1)) : Atoi (Nat.repr n) = some (n : Int) := by
  have hp := parseDigits_toDigits n
  have hne := toDigits_ne_nil n
  have hall := parseDigits_all_digits 0 n _ hp
  unfold Atoi
  simp only [Nat.repr, List.asString]
  cases hds : Nat.toDigits 10 n with
  | nil => exact absurd hds hne
  | cons c cs =>
    rw [hds] at hp hall
    have hc := hall c (List.mem_cons_self c cs)
    have h1 : (c == '-') = false := by
      rw [beq_eq_false_iff_ne]; rintro rfl; revert hc; decide
    have h2 : (c == '+') = false := by
      rw [beq_eq_false_iff_ne]; rintro rfl; revert hc; decide
    simp [h1, h2, hp, h]

theorem Atoi_neg_repr (n : Nat) (h : n ≤ 2 ^ (intSize - 1)) :
    Atoi ("-" ++ Nat.repr n) = some (-(n : Int)) := by
  have hp := parseDigits_toDigits n
  have hne := toDigits_ne_nil n
  unfold Atoi
  have hdata : ("-" ++ Nat.repr n).data = '-' :: Nat.toDigits 10 n := by
    simp [Nat.repr, List.asString, String.data_append]
  rw [hdata]
  cases hds : Nat.toDigits 10 n with
  | nil => exact absurd hds hne
  | cons c cs =>
    rw [hds] at hp
    simp [hp, h]

/-- The parser `Atoi` reads back the decimal text of every integer that fits a Go `int`. -/
theorem Atoi_Itoa (n : Int) (hlo : -(2 ^ (intSize - 1) : Int) ≤ n)
    (hhi : n < (2 ^ (intSize - 1) : Int)) : Atoi (Itoa n) = some n := by
  unfold Itoa
  split
  · rename_i hneg
    rw [Atoi_neg_repr n.natAbs (by zify; rw [abs_of_neg hneg]; omega)]
    congr 1
    rw [Int.natCast_natAbs, abs_of_neg hneg]; omega
  · rename_i hpos
    rw [Atoi_repr n.toNat (by zify; rw [Int.toNat_of_nonneg (by omega)]; exact hhi)]
    congr 1
    exact Int.toNat_of_nonneg (by omega)

/-- A string accepted by `Atoi` is an integer literal. -/
theorem IsIntLiteral_of_Atoi (s : String) (v : Int) (h : Atoi s = some v) : IsIntLiteral s := by
  unfold Atoi at h
  cases hs : s.data with
  | nil => rw [hs] at h; cases h
  | cons c cs =>
    rw [hs] at h
    simp only at h
    by_cases hsign : (c == '-' || c == '+') = true
    · simp only [hsign, if_true] at h
      cases hcs : cs with
      | nil => rw [hcs] at h; cases h
      | cons d ds =>
        rw [hcs] at h
        simp only at h
        cases hp : parseDigits 0 (d :: ds) with
        | none => rw [hp] at h; cases h
        | some un =>
          refine ⟨d :: ds, by simp, parseDigits_all_digits 0 un _ hp, ?_⟩
          simp only [Bool.or_eq_true, beq_iff_eq] at hsign
          rcases hsign with rfl | rfl
          · exact Or.inr (Or.inl (by rw [hs, hcs]))
          · exact Or.inr (Or.inr (by rw [hs, hcs]))
    · simp only [hsign] at h
      simp only [Bool.false_eq_true, if_false] at h
      cases hp : parseDigits 0 (c :: cs) with
      | none => rw [hp] at h; cases h
      | some un =>
        exact ⟨c :: cs, by simp, parseDigits_all_digits 0 un _ hp, Or.inl hs⟩

/-- C2: `getFieldInt` is a total function (it never fails); it returns 0 when the cell
found by `getField` is empty, when the column is missing, when the cell is not a valid
integer literal and whenever `Atoi` reports an error, and it returns `n` when the cell is
the decimal text of an integer `n` of the range of a Go `int`. -/
theorem getFieldInt_spec (record : List String) (header : GoMap Nat) (field : String) :
    (getField record header field = "" → getFieldInt record header field = 0) ∧
    (header.get field = none → getFieldInt record header field = 0) ∧
    (¬ IsIntLiteral (getField record header field) → getFieldInt record header field = 0) ∧
    (Atoi (getField record header field) = none → getFieldInt record header field = 0) ∧
    (∀ n : Int, -(2 ^ (intSize - 1) : Int) ≤ n → n < (2 ^ (intSize - 1) : Int) →
        getField record header field = Itoa n → getFieldInt record header field = n) := by
  have hempty : getField record header field = "" → getFieldInt record header field = 0 := by
    intro h; simp [getFieldInt, h]
  have hfail : Atoi (getField record header field) = none →
      getFieldInt record header field = 0 := by
    intro h; simp [getFieldInt, h]
  refine ⟨hempty, fun h => hempty (getField_of_get_none record header field h), ?_, hfail, ?_⟩
  · intro hlit
    cases hA : Atoi (getField record header field) with
    | none => exact hfail hA
    | some v => exact absurd (IsIntLiteral_of_Atoi _ v hA) hlit
  · intro n hlo hhi hcell
    have hA : Atoi (getField record header field) = some n := by
      rw [hcell]; exact Atoi_Itoa n hlo hhi
    have hne : getField record header field ≠ "" := by
      intro h0
      rw [h0] at hA
      have hnone : Atoi "" = none := by decide
      rw [hnone] at hA
      cases hA
    simp [getFieldInt, hA, hne]

/-- Witness for C2: the cell `-42` is read as the integer -42. -/
theorem getFieldInt_spec_witness :
    getFieldInt ["x", "-42"] ((GoMap.empty.set "a" 0).set "n" 1) "n" = -42 :=
  (getFieldInt_spec ["x", "-42"] ((GoMap.empty.set "a" 0).set "n" 1) "n").2.2.2.2 (-42)
    (by decide) (by decide) (by decide)

/-! ## Loops that store one entry per row -/

namespace GoMap

variable {V : Type}

theorem mem_keys_iff (m : GoMap V) (k : String) : k ∈ m.keys ↔ (m.get k).isSome = true := by
  unfold keys get
  induction m.entries with
  | nil => simp
  | cons e es ih =>
    obtain ⟨a, b⟩ := e
    by_cases h : k = a
    · subst h; simp [List.lookup_cons]
    · have hka : (k == a) = false := by simpa using h
      simp [List.lookup_cons, hka, h, ih]

theorem keys_nodup (m : GoMap V) : m.keys.Nodup := m.nodup

theorem len_eq_keys_length (m : GoMap V) : m.len = m.keys.length := by
  simp [len, keys]

/-- The value found after a loop of assignments `m[key r] = val r`: the one of the last
row with that key, or the old value when no row has the key. -/
theorem get_foldl_set {R : Type} (key : R → String) (val : R → V) (rows : List R)
    (m : GoMap V) (k : String) :
    (rows.foldl (fun m r => m.set (key r) (val r)) m).get k =
      match (rows.filter (fun r => key r == k)).getLast? with
      | some r => some (val r)
      | none => m.get k := by
  induction rows using List.reverseRecOn with
  | nil => rfl
  | append_singleton rows r ih =>
    rw [List.foldl_append, List.filter_append]
    simp only [List.foldl_cons, List.foldl_nil]
    by_cases h : key r = k
    · have hk : (key r == k) = true := by simpa using h
      simp only [List.filter_cons, hk, if_true, List.filter_nil]
      rw [List.getLast?_append_cons, List.getLast?_singleton, ← h, get_set_self]
    · have hk : (key r == k) = false := by simpa using h
      simp only [List.filter_cons, hk, List.filter_nil, Bool.false_eq_true, if_false,
        List.append_nil]
      rw [get_set_ne _ _ _ _ (fun hkk => h hkk.symm)]
      exact ih

theorem get_foldl_set_last {R : Type} (key : R → String) (val : R → V)
    (pre : List R) (r : R) (post : List R) (m : GoMap V)
    (hlast : ∀ r2 ∈ post, key r2 ≠ key r) :
    ((pre ++ r :: post).foldl (fun m r => m.set (key r) (val r)) m).get (key r)
      = some (val r) := by
  rw [get_foldl_set]
  have hpost : post.filter (fun r2 => key r2 == key r) = [] := by
    rw [List.filter_eq_nil_iff]
    intro r2 h2
    simpa using hlast r2 h2
  rw [List.filter_append, List.filter_cons, hpost]
  simp

theorem get_foldl_set_of_forall_ne {R : Type} (key : R → String) (val : R → V)
    (rows : List R) (m : GoMap V) (k : String) (h : ∀ r ∈ rows, key r ≠ k) :
    (rows.foldl (fun m r => m.set (key r) (val r)) m).get k = m.get k := by
  rw [get_foldl_set]
  have hnil : rows.filter (fun r => key r == k) = [] := by
    rw [List.filter_eq_nil_iff]
    intro r hr
    simpa using h r hr
  rw [hnil]
  rfl

theorem mem_keys_foldl_set {R : Type} (key : R → String) (val : R → V) (rows : List R)
    (m : GoMap V) (k : String) :
    k ∈ (rows.foldl (fun m r => m.set (key r) (val r)) m).keys ↔
      k ∈ m.keys ∨ ∃ r ∈ rows, key r = k := by
  rw [mem_keys_iff, get_foldl_set, mem_keys_iff]
  cases hl : (rows.filter (fun r => key r == k)).getLast? with
  | none =>
    have hnil : rows.filter (fun r => key r == k) = [] := by
      simpa using hl
    rw [List.filter_eq_nil_iff] at hnil
    constructor
    · intro h; exact Or.inl h
    · rintro (h | ⟨r, hr, hk⟩)
      · exact h
      · exact absurd (by simpa using hk) (hnil r hr)
  | some r =>
    have hmem : r ∈ rows.filter (fun r => key r == k) := List.mem_of_getLast?_eq_some hl
    rw [List.mem_filter] at hmem
    simp only [Option.isSome_some, true_iff]
    exact Or.inr ⟨r, hmem.1, by simpa using hmem.2⟩

end GoMap

/-! ## loadStops -/

section LoadStops

variable {F : Type}

theorem foldl_stops_proj (fl : Float64 F) (header : GoMap Nat) (rows : List (List String))
    (data : GTFSData F) :
    (rows.foldl (fun data r =>
        let stop := stopOf fl header r
        { data with Stops := data.Stops.set stop.ID stop }) data).Stops =
      rows.foldl (fun m r => m.set (stopOf fl header r).ID (stopOf fl header r))
        data.Stops := by
  induction rows generalizing data with
  | nil => rfl
  | cons r rows ih => simp only [List.foldl_cons]; rw [ih]

/-- When `readCSV` succeeds, `loadStops` succeeds and its `Stops` map is the result of the
assignments `Stops[stop.ID] = stop` in row order. -/
theorem loadStops_ok (fl : Float64 F) (fs : FileSystem) (path : String) (data : GTFSData F)
    (rows : List (List String)) (header : GoMap Nat)
    (hread : readCSV fs path = .ok (rows, header)) :
    ∃ out, loadStops fl fs path data = .ok out ∧
      out.Stops = rows.foldl (fun m r => m.set (stopOf fl header r).ID (stopOf fl header r))
        data.Stops := by
  refine ⟨_, ?_, foldl_stops_proj fl header rows data⟩
  simp only [loadStops, hread]

/-- C3 (as stated) fails: with the rows `1,A` and `1,B` under the header
`stop_id,stop_name`, the first row has a non-empty stop id, yet the stop found under `1`
after the load is the one built from the second row, whose name differs. -/
theorem loadStops_earlier_duplicate_row_lost :
    readCSV duplicateStopsFS "data/stops.csv" =
        .ok ([["1", "A"], ["1", "B"]], headerFrom 0 ["stop_id", "stop_name"] GoMap.empty) ∧
    getField ["1", "A"] (headerFrom 0 ["stop_id", "stop_name"] GoMap.empty) "stop_id" = "1" ∧
    (stopOf intFloat (headerFrom 0 ["stop_id", "stop_name"] GoMap.empty) ["1", "A"]).Name
        = "A" ∧
    ((loadStops intFloat duplicateStopsFS "data/stops.csv" NewGTFSData).toOption.bind
        (fun out => out.Stops.get "1")).map Stop.Name = some "B" := by
  refine ⟨rfl, by decide, by decide, by decide⟩

/-- C3 (amended): for every row with a non-empty stop id that no later row repeats,
looking that id up in `Stops` after `loadStops` returns a stop whose eight fields are
that row's values as coerced by `getField`, `getFieldFloat` and `getFieldInt`. -/
theorem loadStops_lookup_last_row (fl : Float64 F) (fs : FileSystem) (path : String)
    (data : GTFSData F) (rows : List (List String)) (header : GoMap Nat)
    (hread : readCSV fs path = .ok (rows, header))
    (pre : List (List String)) (r : List String) (post : List (List String))
    (hrows : rows = pre ++ r :: post)
    (hid : getField r header "stop_id" ≠ "")
    (hlast : ∀ r2 ∈ post, getField r2 header "stop_id" ≠ getField r header "stop_id") :
    ∃ out stop, loadStops fl fs path data = .ok out ∧
      out.Stops.get (getField r header "stop_id") = some stop ∧
      stop.ID = getField r header "stop_id" ∧
      stop.Name = getField r header "stop_name" ∧
      stop.Lat = getFieldFloat fl r header "stop_lat" ∧
      stop.Lon = getFieldFloat fl r header "stop_lon" ∧
      stop.WheelchairBoarding = getFieldInt r header "wheelchair_boarding" ∧
      stop.URL = getField r header "stop_url" ∧
      stop.LocationType = getFieldInt r header "location_type" ∧
      stop.ParentStation = getField r header "parent_station" := by
  have _ := hid
  obtain ⟨out, hout, hstops⟩ := loadStops_ok fl fs path data rows header hread
  refine ⟨out, stopOf fl header r, hout, ?_, rfl, rfl, rfl, rfl, rfl, rfl, rfl, rfl⟩
  rw [hstops, hrows]
  exact GoMap.get_foldl_set_last (fun r => (stopOf fl header r).ID) (stopOf fl header)
    pre r post data.Stops hlast

/-- Witness for C3 (amended): the second of two rows with the same id is the one found. -/
theorem loadStops_lookup_last_row_witness :
    ∃ out stop, loadStops intFloat duplicateStopsFS "data/stops.csv" NewGTFSData = .ok out ∧
      out.Stops.get (getField ["1", "B"]
        (headerFrom 0 ["stop_id", "stop_name"] GoMap.empty) "stop_id") = some stop ∧
      stop.ID = getField ["1", "B"]
        (headerFrom 0 ["stop_id", "stop_name"] GoMap.empty) "stop_id" ∧
      stop.Name = getField ["1", "B"]
        (headerFrom 0 ["stop_id", "stop_name"] GoMap.empty) "stop_name" ∧
      stop.Lat = getFieldFloat intFloat ["1", "B"]
        (headerFrom 0 ["stop_id", "stop_name"] GoMap.empty) "stop_lat" ∧
      stop.Lon = getFieldFloat intFloat ["1", "B"]
        (headerFrom 0 ["stop_id", "stop_name"] GoMap.empty) "stop_lon" ∧
      stop.WheelchairBoarding = getFieldInt ["1", "B"]
        (headerFrom 0 ["stop_id", "stop_name"] GoMap.empty) "wheelchair_boarding" ∧
      stop.URL = getField ["1", "B"]
        (headerFrom 0 ["stop_id", "stop_name"] GoMap.empty) "stop_url" ∧
      stop.LocationType = getFieldInt ["1", "B"]
        (headerFrom 0 ["stop_id", "stop_name"] GoMap.empty) "location_type" ∧
      stop.ParentStation = getField ["1", "B"]
        (headerFrom 0 ["stop_id", "stop_name"] GoMap.empty) "parent_station" :=
  loadStops_lookup_last_row intFloat duplicateStopsFS "data/stops.csv" NewGTFSData
    [["1", "A"], ["1", "B"]] (headerFrom 0 ["stop_id", "stop_name"] GoMap.empty) rfl
    [["1", "A"]] ["1", "B"] [] rfl (by decide) (by simp)

/-- C4: when several rows carry the same stop id, `loadStops` keeps the last: after the
load `Stops[k]` is the stop built from the last row, in file order, whose stop id is `k`;
and loading into a dataset whose `Stops` map is empty gives a map whose keys are exactly
the ids occurring in the rows, one entry per distinct id. -/
theorem loadStops_last_write_wins (fl : Float64 F) (fs : FileSystem) (path : String)
    (data : GTFSData F) (rows : List (List String)) (header : GoMap Nat)
    (hread : readCSV fs path = .ok (rows, header)) :
    ∃ out, loadStops fl fs path data = .ok out ∧
      (∀ k r, (rows.filter (fun r => getField r header "stop_id" == k)).getLast? = some r →
        out.Stops.get k = some (stopOf fl header r)) ∧
      (data.Stops.entries = [] →
        (∀ k, k ∈ out.Stops.keys ↔ ∃ r ∈ rows, getField r header "stop_id" = k) ∧
        out.Stops.keys.Nodup ∧
        out.Stops.len = ((rows.map (fun r => getField r header "stop_id")).dedup).length) := by
  obtain ⟨out, hout, hstops⟩ := loadStops_ok fl fs path data rows header hread
  refine ⟨out, hout, ?_, ?_⟩
  · intro k r hr
    rw [hstops, GoMap.get_foldl_set]
    have hr2 : (rows.filter (fun r => (stopOf fl header r).ID == k)).getLast? = some r := hr
    rw [hr2]
  · intro hempty
    have hkeys : ∀ k, k ∈ out.Stops.keys ↔ ∃ r ∈ rows, getField r header "stop_id" = k := by
      intro k
      rw [hstops, GoMap.mem_keys_foldl_set]
      have : k ∉ data.Stops.keys := by simp [GoMap.keys, hempty]
      simp only [this, false_or]
      rfl
    refine ⟨hkeys, out.Stops.keys_nodup, ?_⟩
    rw [GoMap.len_eq_keys_length]
    apply List.Perm.length_eq
    rw [List.perm_ext_iff_of_nodup out.Stops.keys_nodup (List.nodup_dedup _)]
    intro k
    rw [hkeys k, List.mem_dedup, List.mem_map]

/-- Witness for C4: two rows with the same id leave one entry, built from the second. -/
theorem loadStops_last_write_wins_witness :
    ∃ out, loadStops intFloat duplicateStopsFS "data/stops.csv" NewGTFSData = .ok out ∧
      (∀ k r, ([["1", "A"], ["1", "B"]].filter (fun r => getField r
          (headerFrom 0 ["stop_id", "stop_name"] GoMap.empty) "stop_id" == k)).getLast?
            = some r →
        out.Stops.get k
          = some (stopOf intFloat (headerFrom 0 ["stop_id", "stop_name"] GoMap.empty) r)) ∧
      ((NewGTFSData : GTFSData Int).Stops.entries = [] →
        (∀ k, k ∈ out.Stops.keys ↔ ∃ r ∈ [["1", "A"], ["1", "B"]], getField r
          (headerFrom 0 ["stop_id", "stop_name"] GoMap.empty) "stop_id" = k) ∧
        out.Stops.keys.Nodup ∧
        out.Stops.len = (([["1", "A"], ["1", "B"]].map (fun r => getField r
          (headerFrom 0 ["stop_id", "stop_name"] GoMap.empty) "stop_id")).dedup).length) :=
  loadStops_last_write_wins intFloat duplicateStopsFS "data/stops.csv" NewGTFSData
    [["1", "A"], ["1", "B"]] (headerFrom 0 ["stop_id", "stop_name"] GoMap.empty) rfl

end LoadStops

/-! ## loadShapes -/

section LoadShapes

variable {F : Type}

theorem sequenceLess_ok : LessOK (sequenceLess : ShapePoint F → ShapePoint F → Bool) where
  irrefl a := by simp [sequenceLess]
  trans a b c := by simp only [sequenceLess, decide_eq_true_eq]; omega
  negTrans a b c := by simp only [sequenceLess, decide_eq_false_iff_not]; omega

/-- The points built from the rows that carry the shape id `k`, in row order. -/
theorem appendShapes_proj (fl : Float64 F) (header : GoMap Nat) (rows : List (List String))
    (data : GTFSData F) :
    (appendShapes fl header rows data).Shapes =
      rows.foldl (fun m r =>
        m.set (shapePointOf fl header r).ShapeID
          ((m.get (shapePointOf fl header r).ShapeID).getD [] ++ [shapePointOf fl header r]))
        data.Shapes := by
  unfold appendShapes
  induction rows generalizing data with
  | nil => rfl
  | cons r rows ih => simp only [List.foldl_cons]; rw [ih]

theorem get_foldl_append {R P : Type} (key : R → String) (val : R → P) (rows : List R)
    (m : GoMap (List P)) (k : String) :
    ((rows.foldl (fun m r => m.set (key r) ((m.get (key r)).getD [] ++ [val r])) m).get k).getD []
      = (m.get k).getD [] ++ (rows.filter (fun r => key r == k)).map val := by
  induction rows generalizing m with
  | nil => simp
  | cons r rows ih =>
    simp only [List.foldl_cons]
    rw [ih]
    by_cases h : key r = k
    · have hk : (key r == k) = true := by simpa using h
      simp only [List.filter_cons, hk, if_true, List.map_cons]
      rw [← h, GoMap.get_set_self]
      simp
    · have hk : (key r == k) = false := by simpa using h
      simp only [List.filter_cons, hk, Bool.false_eq_true, if_false]
      rw [GoMap.get_set_ne _ _ _ _ (fun hkk => h hkk.symm)]

theorem mem_keys_foldl_append {R P : Type} (key : R → String) (val : R → P) (rows : List R)
    (m : GoMap (List P)) (k : String) :
    k ∈ (rows.foldl (fun m r => m.set (key r) ((m.get (key r)).getD [] ++ [val r])) m).keys ↔
      k ∈ m.keys ∨ ∃ r ∈ rows, key r = k := by
  induction rows generalizing m with
  | nil => simp
  | cons r rows ih =>
    simp only [List.foldl_cons]
    rw [ih]
    rw [GoMap.mem_keys_iff, GoMap.get_set, GoMap.mem_keys_iff]
    by_cases h : k = key r
    · simp [h]
    · simp only [h, if_false, List.mem_cons, exists_eq_or_imp]
      constructor
      · rintro (h1 | h2)
        · exact Or.inl h1
        · exact Or.inr (Or.inr h2)
      · rintro (h1 | h2 | h3)
        · exact Or.inl h1
        · exact absurd h2.symm h
        · exact Or.inr h3

theorem sortShapes_proj (sorter : SliceSorter (ShapePoint F)) (keys : List String)
    (data : GTFSData F) :
    (sortShapes sorter keys data).Shapes =
      keys.foldl (fun m shapeID =>
        m.set shapeID (sorter.sort sequenceLess ((m.get shapeID).getD []))) data.Shapes := by
  unfold sortShapes
  induction keys generalizing data with
  | nil => rfl
  | cons k keys ih => simp only [List.foldl_cons]; rw [ih]

theorem get_foldl_sort {P : Type} (f : List P → List P) (keys : List String)
    (hnodup : keys.Nodup) (m : GoMap (List P)) (k : String) :
    (keys.foldl (fun m shapeID => m.set shapeID (f ((m.get shapeID).getD []))) m).get k =
      if k ∈ keys then some (f ((m.get k).getD [])) else m.get k := by
  induction keys generalizing m with
  | nil => simp
  | cons k0 keys ih =>
    rw [List.nodup_cons] at hnodup
    simp only [List.foldl_cons]
    rw [ih hnodup.2]
    by_cases h : k = k0
    · subst h
      simp [hnodup.1, GoMap.get_set_self]
    · simp [h, GoMap.get_set_ne _ _ _ _ h]

theorem range_keys_nodup {V : Type} (rng : MapRange) (m : GoMap V) :
    ((rng.order m).map Prod.fst).Nodup :=
  ((rng.perm m).map Prod.fst).nodup_iff.2 m.nodup

theorem mem_range_keys {V : Type} (rng : MapRange) (m : GoMap V) (k : String) :
    k ∈ (rng.order m).map Prod.fst ↔ k ∈ m.keys :=
  ((rng.perm m).map Prod.fst).mem_iff

/-- When `readCSV` succeeds, `loadShapes` succeeds, and the slice it leaves under a shape
id is the sorted version of what was stored there before followed by the points of the
rows that carry the id, in row order. -/
theorem loadShapes_ok (fl : Float64 F) (sorter : SliceSorter (ShapePoint F)) (rng : MapRange)
    (fs : FileSystem) (path : String) (data : GTFSData F)
    (rows : List (List String)) (header : GoMap Nat)
    (hread : readCSV fs path = .ok (rows, header)) :
    ∃ out, loadShapes fl sorter rng fs path data = .ok out ∧
      ∀ k, out.Shapes.get k =
        if k ∈ data.Shapes.keys ∨ ∃ r ∈ rows, getField r header "shape_id" = k then
          some (sorter.sort sequenceLess ((data.Shapes.get k).getD [] ++
            (rows.filter (fun r => getField r header "shape_id" == k)).map
              (shapePointOf fl header)))
        else none := by
  refine ⟨sortShapes sorter
    ((rng.order (appendShapes fl header rows data).Shapes).map Prod.fst)
    (appendShapes fl header rows data), by simp only [loadShapes, hread], ?_⟩
  intro k
  rw [sortShapes_proj, get_foldl_sort _ _ (range_keys_nodup rng _)]
  have hrange := mem_range_keys rng (appendShapes fl header rows data).Shapes k
  have hmem := mem_keys_foldl_append (fun r => (shapePointOf fl header r).ShapeID)
    (shapePointOf fl header) rows data.Shapes k
  have hget := get_foldl_append (fun r => (shapePointOf fl header r).ShapeID)
    (shapePointOf fl header) rows data.Shapes k
  rw [← appendShapes_proj] at hmem hget
  by_cases hk : k ∈ data.Shapes.keys ∨ ∃ r ∈ rows, getField r header "shape_id" = k
  · rw [if_pos (hrange.2 (hmem.2 hk)), if_pos hk, hget]
    rfl
  · have hnot : k ∉ (appendShapes fl header rows data).Shapes.keys := fun h => hk (hmem.1 h)
    rw [if_neg (fun h => hnot (hrange.1 h)), if_neg hk]
    rw [GoMap.mem_keys_iff] at hnot
    simpa using hnot

end LoadShapes

section LoadShapesClaims

variable {F : Type}

theorem get_of_entries_nil {V : Type} (m : GoMap V) (h : m.entries = []) (k : String) :
    m.get k = none := by
  simp [GoMap.get, h]

theorem not_mem_keys_of_entries_nil {V : Type} (m : GoMap V) (h : m.entries = [])
    (k : String) : k ∉ m.keys := by
  simp [GoMap.keys, h]

/-- Loading into a dataset without shapes: the slice under an id that occurs in the rows
is the sorted list of the points of that id's rows. -/
theorem loadShapes_get (fl : Float64 F) (sorter : SliceSorter (ShapePoint F)) (rng : MapRange)
    (fs : FileSystem) (path : String) (data : GTFSData F)
    (rows : List (List String)) (header : GoMap Nat)
    (hread : readCSV fs path = .ok (rows, header))
    (hempty : data.Shapes.entries = [])
    (k : String) (hk : ∃ r ∈ rows, getField r header "shape_id" = k) :
    ∃ out, loadShapes fl sorter rng fs path data = .ok out ∧
      out.Shapes.get k = some (sorter.sort sequenceLess
        ((rows.filter (fun r => getField r header "shape_id" == k)).map
          (shapePointOf fl header))) := by
  obtain ⟨out, hout, hget⟩ := loadShapes_ok fl sorter rng fs path data rows header hread
  refine ⟨out, hout, ?_⟩
  rw [hget k, if_pos (Or.inr hk), get_of_entries_nil _ hempty]
  simp

/-- C5: for every list of shape rows, in any order, and every shape id occurring in it,
after `loadShapes` (into a dataset that holds no shapes yet, with any `sort.Slice` that
meets its contract and any map visit order) the slice `Shapes[id]` is non-decreasing in
`Sequence` and as long as the number of rows whose `shape_id` is that id. -/
theorem loadShapes_sorted_length (fl : Float64 F) (sorter : SliceSorter (ShapePoint F))
    (rng : MapRange) (fs : FileSystem) (path : String) (data : GTFSData F)
    (rows : List (List String)) (header : GoMap Nat)
    (hread : readCSV fs path = .ok (rows, header))
    (hempty : data.Shapes.entries = [])
    (k : String) (hk : ∃ r ∈ rows, getField r header "shape_id" = k) :
    ∃ out points, loadShapes fl sorter rng fs path data = .ok out ∧
      out.Shapes.get k = some points ∧
      points.Pairwise (fun a b => a.Sequence ≤ b.Sequence) ∧
      points.length = rows.countP (fun r => getField r header "shape_id" == k) := by
  obtain ⟨out, hout, hget⟩ :=
    loadShapes_get fl sorter rng fs path data rows header hread hempty k hk
  refine ⟨out, _, hout, hget, ?_, ?_⟩
  · refine (sorter.sorted sequenceLess _ sequenceLess_ok).imp ?_
    intro a b hab
    simp only [sequenceLess, decide_eq_false_iff_not] at hab
    omega
  · rw [(sorter.perm sequenceLess _).length_eq, List.length_map, List.countP_eq_length_filter]

/-- Witness for C5: three points of shape `s` given in the order 3, 1, 2. -/
theorem loadShapes_sorted_length_witness :
    ∃ out points, loadShapes intFloat (stableSorter _) MapRange.stored unorderedShapesFS
        "data/shapes.csv" NewGTFSData = .ok out ∧
      out.Shapes.get "s" = some points ∧
      points.Pairwise (fun a b => a.Sequence ≤ b.Sequence) ∧
      points.length = [["s", "10", "3"], ["t", "20", "1"], ["s", "30", "1"],
          ["s", "40", "2"]].countP (fun r => getField r
        (headerFrom 0 ["shape_id", "shape_pt_lat", "shape_pt_sequence"] GoMap.empty)
        "shape_id" == "s") :=
  loadShapes_sorted_length intFloat (stableSorter _) MapRange.stored unorderedShapesFS
    "data/shapes.csv" NewGTFSData
    [["s", "10", "3"], ["t", "20", "1"], ["s", "30", "1"], ["s", "40", "2"]]
    (headerFrom 0 ["shape_id", "shape_pt_lat", "shape_pt_sequence"] GoMap.empty)
    rfl rfl "s" ⟨["s", "10", "3"], by simp, by decide⟩

/-- C6 (as stated) fails: `sort.Slice` is not a stable sort.  From 13 elements on it
partitions the slice around a pivot, and that moves elements past others that compare
equal.  The file has 13 rows of shape `s`: rows 1 to 12 carry sequence number 1 and row
13 carries sequence number 0, and the latitude of a row is its row number.  `sort.Slice`
leaves the points in the order of the rows 13, 7, 3, 4, 5, 6, 1, 8, 9, 10, 11, 12, 2, and
that is the slice `Shapes["s"]` after `loadShapes`: the point of row 7 stands before the
point of row 1, and the point of row 2 after the point of row 12, though rows 1 to 12 all
have the same sequence number. -/
theorem loadShapes_ties_not_in_row_order :
    readCSV tiedShapesFS "data/shapes.csv" =
      .ok (tiedShapeRows,
        headerFrom 0 ["shape_id", "shape_pt_lat", "shape_pt_sequence"] GoMap.empty) ∧
    sort.Slice sequenceLess (tiedShapeRows.map (shapePointOf intFloat
        (headerFrom 0 ["shape_id", "shape_pt_lat", "shape_pt_sequence"] GoMap.empty))) =
      some [⟨"s", 13, 0, 0⟩, ⟨"s", 7, 0, 1⟩, ⟨"s", 3, 0, 1⟩, ⟨"s", 4, 0, 1⟩, ⟨"s", 5, 0, 1⟩,
        ⟨"s", 6, 0, 1⟩, ⟨"s", 1, 0, 1⟩, ⟨"s", 8, 0, 1⟩, ⟨"s", 9, 0, 1⟩, ⟨"s", 10, 0, 1⟩,
        ⟨"s", 11, 0, 1⟩, ⟨"s", 12, 0, 1⟩, ⟨"s", 2, 0, 1⟩] ∧
    (loadShapes intFloat (goSorter _) MapRange.stored tiedShapesFS
        "data/shapes.csv" NewGTFSData).toOption.bind (fun out => out.Shapes.get "s") =
      some [⟨"s", 13, 0, 0⟩, ⟨"s", 7, 0, 1⟩, ⟨"s", 3, 0, 1⟩, ⟨"s", 4, 0, 1⟩, ⟨"s", 5, 0, 1⟩,
        ⟨"s", 6, 0, 1⟩, ⟨"s", 1, 0, 1⟩, ⟨"s", 8, 0, 1⟩, ⟨"s", 9, 0, 1⟩, ⟨"s", 10, 0, 1⟩,
        ⟨"s", 11, 0, 1⟩, ⟨"s", 12, 0, 1⟩, ⟨"s", 2, 0, 1⟩] := by
  refine ⟨rfl, by decide, by decide⟩

theorem eq_of_perm_of_sorted_of_nodup (l1 l2 : List (ShapePoint F)) (hperm : l1.Perm l2)
    (h1 : l1.Pairwise (fun a b => sequenceLess b a = false))
    (h2 : l2.Pairwise (fun a b => sequenceLess b a = false))
    (hnodup : (l1.map ShapePoint.Sequence).Nodup) : l1 = l2 := by
  have strict : ∀ l : List (ShapePoint F),
      l.Pairwise (fun a b => sequenceLess b a = false) →
      (l.map ShapePoint.Sequence).Nodup →
      l.Pairwise (fun a b => a.Sequence < b.Sequence) := by
    intro l hs hn
    rw [List.Nodup, List.pairwise_map] at hn
    refine (hs.and hn).imp ?_
    intro a b hab
    obtain ⟨hle, hne⟩ := hab
    simp only [sequenceLess, decide_eq_false_iff_not] at hle
    omega
  haveI : IsAntisymm (ShapePoint F) (fun a b => a.Sequence < b.Sequence) :=
    ⟨fun a b hab hba => absurd hab (not_lt_of_gt hba)⟩
  have hnodup2 : (l2.map ShapePoint.Sequence).Nodup :=
    (hperm.map ShapePoint.Sequence).nodup_iff.1 hnodup
  exact List.eq_of_perm_of_sorted hperm (strict l1 h1 hnodup) (strict l2 h2 hnodup2)

/-- C6 (amended): `loadShapes` sorts with `sort.Slice`, which fixes the order of points
only up to ties.  For every shape id whose rows have pairwise distinct sequence numbers
the slice `Shapes[id]` is fully determined, whichever implementation of `sort.Slice` and
whichever map visit order is used: it is the list of that id's points in ascending
`Sequence`, the one a stable sort of the points in row order produces. -/
theorem loadShapes_order_determined (fl : Float64 F) (sorter : SliceSorter (ShapePoint F))
    (rng : MapRange) (fs : FileSystem) (path : String) (data : GTFSData F)
    (rows : List (List String)) (header : GoMap Nat)
    (hread : readCSV fs path = .ok (rows, header))
    (hempty : data.Shapes.entries = [])
    (k : String) (hk : ∃ r ∈ rows, getField r header "shape_id" = k)
    (hdistinct : ((rows.filter (fun r => getField r header "shape_id" == k)).map
      (fun r => getFieldInt r header "shape_pt_sequence")).Nodup) :
    ∃ out, loadShapes fl sorter rng fs path data = .ok out ∧
      out.Shapes.get k = some ((stableSorter _).sort sequenceLess
        ((rows.filter (fun r => getField r header "shape_id" == k)).map
          (shapePointOf fl header))) := by
  obtain ⟨out, hout, hget⟩ :=
    loadShapes_get fl sorter rng fs path data rows header hread hempty k hk
  refine ⟨out, hout, ?_⟩
  rw [hget]
  congr 1
  apply eq_of_perm_of_sorted_of_nodup
  · exact (sorter.perm sequenceLess _).trans ((stableSorter _).perm sequenceLess _).symm
  · exact sorter.sorted sequenceLess _ sequenceLess_ok
  · exact (stableSorter _).sorted sequenceLess _ sequenceLess_ok
  · refine (((sorter.perm sequenceLess _).map ShapePoint.Sequence).nodup_iff).2 ?_
    rw [List.map_map]
    exact hdistinct

/-- Witness for C6 (amended): `sort.Slice` on three points of shape `s` with the distinct
sequence numbers 3, 1, 2. -/
theorem loadShapes_order_determined_witness :
    ∃ out, loadShapes intFloat (goSorter _) MapRange.stored unorderedShapesFS
        "data/shapes.csv" NewGTFSData = .ok out ∧
      out.Shapes.get "s" = some ((stableSorter _).sort sequenceLess
        (([["s", "10", "3"], ["t", "20", "1"], ["s", "30", "1"], ["s", "40", "2"]].filter
          (fun r => getField r
            (headerFrom 0 ["shape_id", "shape_pt_lat", "shape_pt_sequence"] GoMap.empty)
            "shape_id" == "s")).map
          (shapePointOf intFloat
            (headerFrom 0 ["shape_id", "shape_pt_lat", "shape_pt_sequence"] GoMap.empty)))) :=
  loadShapes_order_determined intFloat (goSorter _) MapRange.stored unorderedShapesFS
    "data/shapes.csv" NewGTFSData
    [["s", "10", "3"], ["t", "20", "1"], ["s", "30", "1"], ["s", "40", "2"]]
    (headerFrom 0 ["shape_id", "shape_pt_lat", "shape_pt_sequence"] GoMap.empty)
    rfl rfl "s" ⟨["s", "10", "3"], by simp, by decide⟩ (by decide)

end LoadShapesClaims

/-! ## LoadGTFS -/

section LoadGTFSClaims

variable {F : Type}

/-- What every loader does on a path, whatever the dataset: it fails with one and the same
error, or it succeeds and leaves the `Places` map as it was. -/
theorem loader_cases_of_readCSV (fs : FileSystem) (path : String)
    (load : String → GTFSData F → Except String (GTFSData F))
    (body : List (List String) → GoMap Nat → GTFSData F → GTFSData F)
    (hload : ∀ data, load path data =
      match readCSV fs path with
      | .error err => .error err
      | .ok (records, header) => .ok (body records header data))
    (hplaces : ∀ records header data, (body records header data).Places = data.Places) :
    (∃ err, ∀ data, load path data = .error err) ∨
    (∃ f : GTFSData F → GTFSData F, (∀ data, load path data = .ok (f data)) ∧
      ∀ data, (f data).Places = data.Places) := by
  cases hr : readCSV fs path with
  | error err =>
    left
    exact ⟨err, fun data => by rw [hload data, hr]⟩
  | ok res =>
    obtain ⟨records, header⟩ := res
    right
    exact ⟨body records header, fun data => by rw [hload data, hr],
      hplaces records header⟩

theorem loadAgencies_cases (fs : FileSystem) (path : String) :
    (∃ err, ∀ data : GTFSData F, loadAgencies fs path data = .error err) ∨
    (∃ f : GTFSData F → GTFSData F, (∀ data, loadAgencies fs path data = .ok (f data)) ∧
      ∀ data, (f data).Places = data.Places) := by
  refine loader_cases_of_readCSV fs path (loadAgencies fs) _ (fun data => rfl) ?_
  intro records header data
  induction records generalizing data with
  | nil => rfl
  | cons r records ih => simp only [List.foldl_cons]; rw [ih]

theorem loadStops_cases (fl : Float64 F) (fs : FileSystem) (path : String) :
    (∃ err, ∀ data : GTFSData F, loadStops fl fs path data = .error err) ∨
    (∃ f : GTFSData F → GTFSData F, (∀ data, loadStops fl fs path data = .ok (f data)) ∧
      ∀ data, (f data).Places = data.Places) := by
  refine loader_cases_of_readCSV fs path (loadStops fl fs) _ (fun data => rfl) ?_
  intro records header data
  induction records generalizing data with
  | nil => rfl
  | cons r records ih => simp only [List.foldl_cons]; rw [ih]

theorem loadRoutes_cases (fs : FileSystem) (path : String) :
    (∃ err, ∀ data : GTFSData F, loadRoutes fs path data = .error err) ∨
    (∃ f : GTFSData F → GTFSData F, (∀ data, loadRoutes fs path data = .ok (f data)) ∧
      ∀ data, (f data).Places = data.Places) := by
  refine loader_cases_of_readCSV fs path (loadRoutes fs) _ (fun data => rfl) ?_
  intro records header data
  induction records generalizing data with
  | nil => rfl
  | cons r records ih => simp only [List.foldl_cons]; rw [ih]

theorem loadTrips_cases (fs : FileSystem) (path : String) :
    (∃ err, ∀ data : GTFSData F, loadTrips fs path data = .error err) ∨
    (∃ f : GTFSData F → GTFSData F, (∀ data, loadTrips fs path data = .ok (f data)) ∧
      ∀ data, (f data).Places = data.Places) := by
  refine loader_cases_of_readCSV fs path (loadTrips fs) _ (fun data => rfl) ?_
  intro records header data
  induction records generalizing data with
  | nil => rfl
  | cons r records ih => simp only [List.foldl_cons]; rw [ih]

theorem loadCalendar_cases (fs : FileSystem) (path : String) :
    (∃ err, ∀ data : GTFSData F, loadCalendar fs path data = .error err) ∨
    (∃ f : GTFSData F → GTFSData F, (∀ data, loadCalendar fs path data = .ok (f data)) ∧
      ∀ data, (f data).Places = data.Places) := by
  refine loader_cases_of_readCSV fs path (loadCalendar fs) _ (fun data => rfl) ?_
  intro records header data
  induction records generalizing data with
  | nil => rfl
  | cons r records ih => simp only [List.foldl_cons]; rw [ih]

theorem appendShapes_places (fl : Float64 F) (header : GoMap Nat)
    (records : List (List String)) (data : GTFSData F) :
    (appendShapes fl header records data).Places = data.Places := by
  unfold appendShapes
  induction records generalizing data with
  | nil => rfl
  | cons r records ih => simp only [List.foldl_cons]; rw [ih]

theorem sortShapes_places (sorter : SliceSorter (ShapePoint F)) (keys : List String)
    (data : GTFSData F) : (sortShapes sorter keys data).Places = data.Places := by
  unfold sortShapes
  induction keys generalizing data with
  | nil => rfl
  | cons k keys ih => simp only [List.foldl_cons]; rw [ih]

theorem loadShapes_cases (fl : Float64 F) (sorter : SliceSorter (ShapePoint F))
    (rng : MapRange) (fs : FileSystem) (path : String) :
    (∃ err, ∀ data : GTFSData F, loadShapes fl sorter rng fs path data = .error err) ∨
    (∃ f : GTFSData F → GTFSData F,
      (∀ data, loadShapes fl sorter rng fs path data = .ok (f data)) ∧
      ∀ data, (f data).Places = data.Places) := by
  refine loader_cases_of_readCSV fs path (loadShapes fl sorter rng fs)
    (fun records header data =>
      sortShapes sorter ((rng.order (appendShapes fl header records data).Shapes).map Prod.fst)
        (appendShapes fl header records data)) (fun data => rfl) ?_
  intro records header data
  rw [sortShapes_places, appendShapes_places]

theorem buildLists_places (rng : MapRange) (data : GTFSData F) :
    (buildLists rng data).Places = data.Places := by
  have h1 : ∀ (l : List (String × Stop F)) (d : GTFSData F),
      (l.foldl (fun data e => { data with StopsList := data.StopsList ++ [e.2] }) d).Places
        = d.Places := by
    intro l
    induction l with
    | nil => intro d; rfl
    | cons e l ih => intro d; simp only [List.foldl_cons]; rw [ih]
  have h2 : ∀ (l : List (String × Route)) (d : GTFSData F),
      (l.foldl (fun data e => { data with RoutesList := data.RoutesList ++ [e.2] }) d).Places
        = d.Places := by
    intro l
    induction l with
    | nil => intro d; rfl
    | cons e l ih => intro d; simp only [List.foldl_cons]; rw [ih]
  unfold buildLists
  simp only
  rw [h2, h1]

theorem fails_of_error (load : String → GTFSData F → Except String (GTFSData F))
    (path : String) (err : String) (h : ∀ data, load path data = .error err) :
    Fails load path :=
  ⟨NewGTFSData, err, h NewGTFSData⟩

theorem not_fails_of_ok (load : String → GTFSData F → Except String (GTFSData F))
    (path : String) (f : GTFSData F → GTFSData F) (h : ∀ data, load path data = .ok (f data)) :
    ¬ Fails load path := by
  rintro ⟨data, err, herr⟩
  rw [h data] at herr
  cases herr

end LoadGTFSClaims

section LoadGTFSMain

variable {F : Type}

theorem loadPlaces_cases (fl : Float64 F) (fs : FileSystem) (path : String) :
    (∃ err, ∀ data : GTFSData F, loadPlaces fl fs path data = .error err) ∨
    (∃ f : GTFSData F → GTFSData F, ∀ data, loadPlaces fl fs path data = .ok (f data)) := by
  cases hr : readCSV fs path with
  | error err =>
    left
    exact ⟨err, fun data => by simp only [loadPlaces, hr]⟩
  | ok res =>
    obtain ⟨records, header⟩ := res
    right
    exact ⟨fun data => records.foldl (fun data r =>
      let place := placeOf fl header r
      if place.ID != "" then { data with Places := data.Places.set place.ID place }
      else data) data, fun data => by simp only [loadPlaces, hr]⟩

/-- C7: `LoadGTFS` returns an error (and, being an error, no dataset) if and only if
loading at least one of `agency.csv`, `stops.csv`, `routes.csv`, `trips.csv`,
`calendar.csv`, `shapes.csv` fails; and when none of these fails but `places.csv` does,
`LoadGTFS` succeeds and the `Places` map of the dataset it returns is empty. -/
theorem LoadGTFS_error_iff (fl : Float64 F) (sorter : SliceSorter (ShapePoint F))
    (rng : MapRange) (fs : FileSystem) (dataDir : String) :
    ((∃ err, LoadGTFS fl sorter rng fs dataDir = .error err) ↔
      (Fails (@loadAgencies F fs) (fs.Join dataDir "agency.csv") ∨
       Fails (loadStops fl fs) (fs.Join dataDir "stops.csv") ∨
       Fails (@loadRoutes F fs) (fs.Join dataDir "routes.csv") ∨
       Fails (@loadTrips F fs) (fs.Join dataDir "trips.csv") ∨
       Fails (@loadCalendar F fs) (fs.Join dataDir "calendar.csv") ∨
       Fails (loadShapes fl sorter rng fs) (fs.Join dataDir "shapes.csv"))) ∧
    (¬ (Fails (@loadAgencies F fs) (fs.Join dataDir "agency.csv") ∨
        Fails (loadStops fl fs) (fs.Join dataDir "stops.csv") ∨
        Fails (@loadRoutes F fs) (fs.Join dataDir "routes.csv") ∨
        Fails (@loadTrips F fs) (fs.Join dataDir "trips.csv") ∨
        Fails (@loadCalendar F fs) (fs.Join dataDir "calendar.csv") ∨
        Fails (loadShapes fl sorter rng fs) (fs.Join dataDir "shapes.csv")) →
      Fails (loadPlaces fl fs) (fs.Join dataDir "places.csv") →
      ∃ data, LoadGTFS fl sorter rng fs dataDir = .ok data ∧ data.Places.entries = []) := by
  rcases @loadAgencies_cases F fs (fs.Join dataDir "agency.csv") with
    ⟨e1, h1⟩ | ⟨f1, h1, p1⟩
  · have hf := fails_of_error _ _ e1 h1
    have hload : LoadGTFS fl sorter rng fs dataDir =
        .error ("loading " ++ "agency.csv" ++ ": " ++ e1) := by
      simp only [LoadGTFS, loaders, runLoaders, h1, if_true]
    exact ⟨⟨fun _ => Or.inl hf, fun _ => ⟨_, hload⟩⟩, fun hn => absurd (Or.inl hf) hn⟩
  have n1 := not_fails_of_ok _ _ f1 h1
  rcases loadStops_cases fl fs (fs.Join dataDir "stops.csv") with
    ⟨e2, h2⟩ | ⟨f2, h2, p2⟩
  · have hf := fails_of_error _ _ e2 h2
    have hload : LoadGTFS fl sorter rng fs dataDir =
        .error ("loading " ++ "stops.csv" ++ ": " ++ e2) := by
      simp only [LoadGTFS, loaders, runLoaders, h1, h2, if_true]
    exact ⟨⟨fun _ => Or.inr (Or.inl hf), fun _ => ⟨_, hload⟩⟩, fun hn => absurd (Or.inr (Or.inl hf)) hn⟩
  have n2 := not_fails_of_ok _ _ f2 h2
  rcases @loadRoutes_cases F fs (fs.Join dataDir "routes.csv") with
    ⟨e3, h3⟩ | ⟨f3, h3, p3⟩
  · have hf := fails_of_error _ _ e3 h3
    have hload : LoadGTFS fl sorter rng fs dataDir =
        .error ("loading " ++ "routes.csv" ++ ": " ++ e3) := by
      simp only [LoadGTFS, loaders, runLoaders, h1, h2, h3, if_true]
    exact ⟨⟨fun _ => Or.inr (Or.inr (Or.inl hf)), fun _ => ⟨_, hload⟩⟩, fun hn => absurd (Or.inr (Or.inr (Or.inl hf))) hn⟩
  have n3 := not_fails_of_ok _ _ f3 h3
  rcases @loadTrips_cases F fs (fs.Join dataDir "trips.csv") with
    ⟨e4, h4⟩ | ⟨f4, h4, p4⟩
  · have hf := fails_of_error _ _ e4 h4
    have hload : LoadGTFS fl sorter rng fs dataDir =
        .error ("loading " ++ "trips.csv" ++ ": " ++ e4) := by
      simp only [LoadGTFS, loaders, runLoaders, h1, h2, h3, h4, if_true]
    exact ⟨⟨fun _ => Or.inr (Or.inr (Or.inr (Or.inl hf))), fun _ => ⟨_, hload⟩⟩, fun hn => absurd (Or.inr (Or.inr (Or.inr (Or.inl hf)))) hn⟩
  have n4 := not_fails_of_ok _ _ f4 h4
  rcases @loadCalendar_cases F fs (fs.Join dataDir "calendar.csv") with
    ⟨e5, h5⟩ | ⟨f5, h5, p5⟩
  · have hf := fails_of_error _ _ e5 h5
    have hload : LoadGTFS fl sorter rng fs dataDir =
        .error ("loading " ++ "calendar.csv" ++ ": " ++ e5) := by
      simp only [LoadGTFS, loaders, runLoaders, h1, h2, h3, h4, h5, if_true]
    exact ⟨⟨fun _ => Or.inr (Or.inr (Or.inr (Or.inr (Or.inl hf)))), fun _ => ⟨_, hload⟩⟩, fun hn => absurd (Or.inr (Or.inr (Or.inr (Or.inr (Or.inl hf))))) hn⟩
  have n5 := not_fails_of_ok _ _ f5 h5
  rcases loadShapes_cases fl sorter rng fs (fs.Join dataDir "shapes.csv") with
    ⟨e6, h6⟩ | ⟨f6, h6, p6⟩
  · have hf := fails_of_error _ _ e6 h6
    have hload : LoadGTFS fl sorter rng fs dataDir =
        .error ("loading " ++ "shapes.csv" ++ ": " ++ e6) := by
      simp only [LoadGTFS, loaders, runLoaders, h1, h2, h3, h4, h5, h6, if_true]
    exact ⟨⟨fun _ => Or.inr (Or.inr (Or.inr (Or.inr (Or.inr (hf))))), fun _ => ⟨_, hload⟩⟩, fun hn => absurd (Or.inr (Or.inr (Or.inr (Or.inr (Or.inr (hf)))))) hn⟩
  have n6 := not_fails_of_ok _ _ f6 h6
  have hnone : ¬ (Fails (@loadAgencies F fs) (fs.Join dataDir "agency.csv") ∨
      Fails (loadStops fl fs) (fs.Join dataDir "stops.csv") ∨
      Fails (@loadRoutes F fs) (fs.Join dataDir "routes.csv") ∨
      Fails (@loadTrips F fs) (fs.Join dataDir "trips.csv") ∨
      Fails (@loadCalendar F fs) (fs.Join dataDir "calendar.csv") ∨
      Fails (loadShapes fl sorter rng fs) (fs.Join dataDir "shapes.csv")) := by
    rintro (h | h | h | h | h | h)
    · exact n1 h
    · exact n2 h
    · exact n3 h
    · exact n4 h
    · exact n5 h
    · exact n6 h
  rcases loadPlaces_cases fl fs (fs.Join dataDir "places.csv") with ⟨e7, h7⟩ | ⟨f7, h7⟩
  · have hload : LoadGTFS fl sorter rng fs dataDir =
        .ok (buildLists rng (f6 (f5 (f4 (f3 (f2 (f1 NewGTFSData))))))) := by
      simp [LoadGTFS, loaders, runLoaders, h1, h2, h3, h4, h5, h6, h7]
    refine ⟨⟨?_, fun h => absurd h hnone⟩, fun _ _ => ⟨_, hload, ?_⟩⟩
    · rintro ⟨err, herr⟩
      rw [hload] at herr
      cases herr
    · rw [buildLists_places, p6, p5, p4, p3, p2, p1]
      rfl
  · have hload : LoadGTFS fl sorter rng fs dataDir =
        .ok (buildLists rng (f7 (f6 (f5 (f4 (f3 (f2 (f1 NewGTFSData)))))))) := by
      simp [LoadGTFS, loaders, runLoaders, h1, h2, h3, h4, h5, h6, h7]
    refine ⟨⟨?_, fun h => absurd h hnone⟩, fun _ hp => ?_⟩
    · rintro ⟨err, herr⟩
      rw [hload] at herr
      cases herr
    · exact absurd hp (not_fails_of_ok _ _ f7 h7)

/-- Witness for C7: a directory with the six required files and no `places.csv`. -/
theorem LoadGTFS_error_iff_witness :
    ∃ data, LoadGTFS intFloat (stableSorter _) MapRange.stored noPlacesFS "data" = .ok data ∧
      data.Places.entries = [] :=
  (LoadGTFS_error_iff intFloat (stableSorter _) MapRange.stored noPlacesFS "data").2
    (by
      rintro (⟨d, e, h⟩ | ⟨d, e, h⟩ | ⟨d, e, h⟩ | ⟨d, e, h⟩ | ⟨d, e, h⟩ | ⟨d, e, h⟩) <;>
        cases h)
    ⟨NewGTFSData, _, rfl⟩

end LoadGTFSMain

/-! ## The handlers -/

section HandlerClaims

variable {F : Type}

theorem foldl_append_if {α : Type} (p : α → Bool) (l init : List α) :
    l.foldl (fun acc a => if p a then acc ++ [a] else acc) init = init ++ l.filter p := by
  induction l generalizing init with
  | nil => simp
  | cons a l ih =>
    simp only [List.foldl_cons]
    rw [ih]
    by_cases h : p a = true
    · simp [h, List.filter_cons]
    · simp [h, List.filter_cons]

theorem findNearbyStops_eq_filter (fl : Float64 F) (geo : Geo F) (h : Handler F)
    (lat lon radiusMeters : F) :
    findNearbyStops fl geo h lat lon radiusMeters =
      h.gtfs.StopsList.filter (fun stop =>
        fl.le (geo.HaversineDistance lat lon stop.Lat stop.Lon) radiusMeters) := by
  unfold findNearbyStops
  have hfold := foldl_append_if (fun stop : Stop F =>
    fl.le (geo.HaversineDistance lat lon stop.Lat stop.Lon) radiusMeters)
    h.gtfs.StopsList []
  rw [List.nil_append] at hfold
  exact hfold

/-- C8: for every dataset, query point and radius, `findNearbyStops` returns exactly the
stops of `StopsList` whose distance to the query point is `<=` the radius, each once and
in `StopsList` order; a stop at distance exactly the radius is included, a stop at a
greater distance is excluded, and the result is the empty list when no stop qualifies. -/
theorem findNearbyStops_spec (fl : Float64 F) (geo : Geo F) (h : Handler F)
    (lat lon radiusMeters : F) :
    findNearbyStops fl geo h lat lon radiusMeters =
      h.gtfs.StopsList.filter (fun stop =>
        fl.le (geo.HaversineDistance lat lon stop.Lat stop.Lon) radiusMeters) ∧
    (findNearbyStops fl geo h lat lon radiusMeters).Sublist h.gtfs.StopsList ∧
    (∀ stop ∈ h.gtfs.StopsList,
      fl.eq (geo.HaversineDistance lat lon stop.Lat stop.Lon) radiusMeters = true →
      stop ∈ findNearbyStops fl geo h lat lon radiusMeters) ∧
    (∀ stop, fl.lt radiusMeters (geo.HaversineDistance lat lon stop.Lat stop.Lon) = true →
      stop ∉ findNearbyStops fl geo h lat lon radiusMeters) ∧
    ((∀ stop ∈ h.gtfs.StopsList,
        fl.le (geo.HaversineDistance lat lon stop.Lat stop.Lon) radiusMeters = false) →
      findNearbyStops fl geo h lat lon radiusMeters = []) := by
  have heq := findNearbyStops_eq_filter fl geo h lat lon radiusMeters
  refine ⟨heq, ?_, ?_, ?_, ?_⟩
  · rw [heq]; exact List.filter_sublist _
  · intro stop hmem hd
    rw [heq, List.mem_filter]
    simp only [Float64.eq, Bool.and_eq_true] at hd
    exact ⟨hmem, hd.1⟩
  · intro stop hd hmem
    rw [heq, List.mem_filter] at hmem
    simp only [Float64.lt, Bool.and_eq_true, Bool.not_eq_true'] at hd
    rw [hmem.2] at hd
    exact absurd hd.2 (by decide)
  · intro hall
    rw [heq, List.filter_eq_nil_iff]
    intro stop hmem
    simp [hall stop hmem]

/-- Witness for C8: with stops at grid distance 0 and 500 from the query point, the
radius 500 includes the stop at distance exactly 500. -/
theorem findNearbyStops_spec_witness :
    stopAt "far" 0 500 ∈ findNearbyStops intFloat gridGeo
      ⟨twoStopsData, offlineClient Int⟩ 0 0 500 :=
  (findNearbyStops_spec intFloat gridGeo ⟨twoStopsData, offlineClient Int⟩ 0 0 500).2.2.1
    (stopAt "far" 0 500) (by decide) (by decide)

theorem findNearbyStops_radius_499 :
    findNearbyStops intFloat gridGeo ⟨twoStopsData, offlineClient Int⟩ 0 0 499
      = [stopAt "near" 0 0] := by
  decide

/-- The trip that decides the result of the scan of `RouteShape`: the first one of the
route with a non-empty shape id that is a key of `Shapes`. -/
theorem scanTrips_eq_find (shapes : GoMap (List (ShapePoint F))) (route : Route)
    (trips : List Trip) :
    scanTrips shapes route trips =
      match trips.find? (fun trip => trip.RouteID == route.ID && trip.ShapeID != "" &&
          (shapes.get trip.ShapeID).isSome) with
      | some trip => (shapes.get trip.ShapeID).getD []
      | none => [] := by
  induction trips with
  | nil => rfl
  | cons trip trips ih =>
    simp only [scanTrips, List.find?_cons]
    by_cases hm : (trip.RouteID == route.ID && trip.ShapeID != "") = true
    · cases hs : shapes.get trip.ShapeID with
      | none => simp only [hm, hs, if_true, Option.isSome_none, Bool.and_false]; exact ih
      | some points => simp [hm, hs]
    · have hm2 : (trip.RouteID == route.ID && trip.ShapeID != "") = false := by
        simpa using hm
      simp only [hm2, Bool.false_and, Bool.false_eq_true, if_false]
      exact ih

/-- C9 (as stated) fails: in `missingShapeData` the first trip visited, `t1`, belongs to
the route `R` and names the shape `missing`, which has no entry in `Shapes`; the answer
is not empty but the point of shape `s2`, named by the later trip `t2`. -/
theorem RouteShape_skips_missing_shape :
    (MapRange.stored.order missingShapeData.Trips).map Prod.snd
      = [tripOfR "t1" "missing", tripOfR "t2" "s2"] ∧
    missingShapeData.Routes.get "R" = some routeR ∧
    (tripOfR "t1" "missing").RouteID = routeR.ID ∧
    (tripOfR "t1" "missing").ShapeID ≠ "" ∧
    missingShapeData.Shapes.get (tripOfR "t1" "missing").ShapeID = none ∧
    RouteShape ⟨missingShapeData, offlineClient Int⟩ MapRange.stored "R"
      = .ok ⟨"R", [⟨"s2", 1, 2, 0⟩]⟩ := by
  refine ⟨by decide, by decide, by decide, by decide, by decide, by decide⟩

/-- C9 (amended): in the route-shape resolution of `RouteShape`, for a non-empty route id
that is a key of `Routes`, the first trip in visit order whose `RouteID` equals the ID of
that route, whose `ShapeID` is non-empty and whose `ShapeID` has an entry in `Shapes`
determines the shape: the answer carries the points stored under that shape id.  Trips of
the route whose shape id has no entry are passed over, and the answer is the empty
sequence only when no trip of the route names an existing shape. -/
theorem RouteShape_first_resolvable_trip (h : Handler F) (rng : MapRange) (routeID : String)
    (route : Route) (hne : routeID ≠ "") (hroute : h.gtfs.Routes.get routeID = some route) :
    RouteShape h rng routeID = .ok
      { RouteID := route.ID
        Points :=
          match ((rng.order h.gtfs.Trips).map Prod.snd).find? (fun trip =>
              trip.RouteID == route.ID && trip.ShapeID != "" &&
                (h.gtfs.Shapes.get trip.ShapeID).isSome) with
          | some trip => (h.gtfs.Shapes.get trip.ShapeID).getD []
          | none => [] } := by
  have hne2 : (routeID == "") = false := by simpa using hne
  simp only [RouteShape, hne2, Bool.false_eq_true, if_false, hroute]
  rw [scanTrips_eq_find]

/-- Witness for C9 (amended): the dataset of the counterexample, where `t2` decides. -/
theorem RouteShape_first_resolvable_trip_witness :
    RouteShape ⟨missingShapeData, offlineClient Int⟩ MapRange.stored "R" = .ok
      { RouteID := routeR.ID
        Points :=
          match ((MapRange.stored.order missingShapeData.Trips).map Prod.snd).find?
              (fun trip => trip.RouteID == routeR.ID && trip.ShapeID != "" &&
                (missingShapeData.Shapes.get trip.ShapeID).isSome) with
          | some trip => (missingShapeData.Shapes.get trip.ShapeID).getD []
          | none => [] } :=
  RouteShape_first_resolvable_trip ⟨missingShapeData, offlineClient Int⟩ MapRange.stored "R"
    routeR (by decide) (by decide)

/-- C10 (as stated) fails: the fresh dataset has no trip at all, so no trip has the
`RouteID` `x` with a non-empty `ShapeID`, and `RouteShape` answers the route id `x` with
NotFound (404); it answers the empty route id with 400. -/
theorem RouteShape_unknown_route_not_found :
    (∀ trip ∈ (NewGTFSData : GTFSData Int).Trips.values,
      ¬ (trip.RouteID = "x" ∧ trip.ShapeID ≠ "")) ∧
    RouteShape ⟨(NewGTFSData : GTFSData Int), offlineClient Int⟩ MapRange.stored "x"
      = .error "route not found" 404 ∧
    RouteShape ⟨(NewGTFSData : GTFSData Int), offlineClient Int⟩ MapRange.stored ""
      = .error "route_id parameter required" 400 := by
  refine ⟨?_, by decide, by decide⟩
  intro trip hmem
  cases hmem

/-- C10 (amended): for every dataset, every map visit order and every non-empty route id
that is a key of `Routes`, if no trip has the `RouteID` of the route stored under that
key together with a non-empty `ShapeID` (the route has no trips, or all of its trips have
empty shape ids), `RouteShape` answers with status 200 and an empty point sequence, not
with NotFound or another error. -/
theorem RouteShape_no_shape_trip (h : Handler F) (rng : MapRange) (routeID : String)
    (route : Route) (hne : routeID ≠ "") (hroute : h.gtfs.Routes.get routeID = some route)
    (hnone : ∀ trip ∈ h.gtfs.Trips.values,
      ¬ (trip.RouteID = route.ID ∧ trip.ShapeID ≠ "")) :
    RouteShape h rng routeID = .ok { RouteID := route.ID, Points := [] } := by
  have hne2 : (routeID == "") = false := by simpa using hne
  simp only [RouteShape, hne2, Bool.false_eq_true, if_false, hroute]
  rw [scanTrips_eq_find]
  have hfind : ((rng.order h.gtfs.Trips).map Prod.snd).find? (fun trip =>
      trip.RouteID == route.ID && trip.ShapeID != "" &&
        (h.gtfs.Shapes.get trip.ShapeID).isSome) = none := by
    rw [List.find?_eq_none]
    intro trip hmem
    have hval : trip ∈ h.gtfs.Trips.values := ((rng.perm h.gtfs.Trips).map Prod.snd).mem_iff.1 hmem
    have := hnone trip hval
    simp only [Bool.and_eq_true, beq_iff_eq, bne_iff_ne, ne_eq, not_and]
    intro hmatch
    exact absurd hmatch this
  rw [hfind]

/-- Witness for C10 (amended): the only trip of route `R` has an empty shape id. -/
theorem RouteShape_no_shape_trip_witness :
    RouteShape ⟨noShapeData, offlineClient Int⟩ MapRange.stored "R"
      = .ok { RouteID := routeR.ID, Points := [] } :=
  RouteShape_no_shape_trip ⟨noShapeData, offlineClient Int⟩ MapRange.stored "R" routeR
    (by decide) (by decide) (by decide)

end HandlerClaims

/-! ## Lookups by an absent id -/

section NotFoundClaims

variable {F : Type}

theorem get_eq_none_of_not_mem_keys {V : Type} (m : GoMap V) (k : String)
    (h : k ∉ m.keys) : m.get k = none := by
  rw [GoMap.mem_keys_iff] at h
  simpa using h

/-- C11: a lookup by an absent id reports NotFound.  For every dataset and every
non-empty id that is not a key of `Routes`, `RouteShape` answers 404 `route not found`
(an error response, which carries no route and no points); for every non-empty id that
is not a key of `Stops`, `Arrivals` answers 404 `stop not found` and makes no call of the
arrivals client. -/
theorem lookup_absent_not_found (h : Handler F) (rng : MapRange) (id : String)
    (hne : id ≠ "") :
    (id ∉ h.gtfs.Routes.keys → RouteShape h rng id = .error "route not found" 404) ∧
    (id ∉ h.gtfs.Stops.keys → Arrivals h id = (.error "stop not found" 404, [])) := by
  have hne2 : (id == "") = false := by simpa using hne
  constructor
  · intro hk
    simp only [RouteShape, hne2, Bool.false_eq_true, if_false,
      get_eq_none_of_not_mem_keys _ _ hk]
  · intro hk
    simp only [Arrivals, hne2, Bool.false_eq_true, if_false,
      get_eq_none_of_not_mem_keys _ _ hk]

/-- Witness for C11: the id `nowhere` in a dataset with the stops `near` and `far` and
no routes. -/
theorem lookup_absent_not_found_witness :
    RouteShape ⟨twoStopsData, offlineClient Int⟩ MapRange.stored "nowhere"
      = .error "route not found" 404 ∧
    Arrivals ⟨twoStopsData, offlineClient Int⟩ "nowhere"
      = (.error "stop not found" 404, []) :=
  ⟨(lookup_absent_not_found ⟨twoStopsData, offlineClient Int⟩ MapRange.stored "nowhere"
      (by decide)).1 (by decide),
   (lookup_absent_not_found ⟨twoStopsData, offlineClient Int⟩ MapRange.stored "nowhere"
      (by decide)).2 (by decide)⟩

end NotFoundClaims

/-! ## Empty ids -/

/-- C12 (as stated) fails: `loadStops` stores every row, whatever its stop id.  With the
single row `,Nameless` under the header `stop_id,stop_name`, the stop with the empty ID is
stored under the key `""`, and after `LoadGTFS` it is an entry of `StopsList`. -/
theorem loadStops_stores_empty_id :
    (loadStops intFloat emptyStopIdFS "data/stops.csv" NewGTFSData).toOption.bind
        (fun out => out.Stops.get "") = some (stopOf intFloat
          (headerFrom 0 ["stop_id", "stop_name"] GoMap.empty) ["", "Nameless"]) ∧
    (stopOf intFloat (headerFrom 0 ["stop_id", "stop_name"] GoMap.empty)
        ["", "Nameless"]).ID = "" ∧
    (LoadGTFS intFloat (stableSorter _) MapRange.stored emptyStopIdFS "data").toOption.map
        (fun out => out.StopsList.map Stop.ID) = some [""] := by
  refine ⟨by decide, by decide, by decide⟩

section LoadStopsIds

variable {F : Type}

/-- C12 (amended): after `loadStops` on any list of rows, into a dataset without stops,
every stop held in the `Stops` map is stored under its own ID, and that ID is the
`stop_id` cell of some row; hence every stop held has a non-empty ID if and only if no
row has an empty `stop_id` cell.  A row with an empty `stop_id` is kept, under the key
`""`. -/
theorem loadStops_ids (fl : Float64 F) (fs : FileSystem) (path : String)
    (data : GTFSData F) (rows : List (List String)) (header : GoMap Nat)
    (hread : readCSV fs path = .ok (rows, header))
    (hempty : data.Stops.entries = []) :
    ∃ out, loadStops fl fs path data = .ok out ∧
      (∀ k stop, out.Stops.get k = some stop →
        stop.ID = k ∧ ∃ r ∈ rows, getField r header "stop_id" = k) ∧
      ((∀ k stop, out.Stops.get k = some stop → stop.ID ≠ "") ↔
        ∀ r ∈ rows, getField r header "stop_id" ≠ "") ∧
      ((∃ r ∈ rows, getField r header "stop_id" = "") →
        ∃ stop, out.Stops.get "" = some stop ∧ stop.ID = "") := by
  obtain ⟨out, hout, hstops⟩ := loadStops_ok fl fs path data rows header hread
  have hstored : ∀ k stop, out.Stops.get k = some stop →
      stop.ID = k ∧ ∃ r ∈ rows, getField r header "stop_id" = k := by
    intro k stop hget
    rw [hstops, GoMap.get_foldl_set] at hget
    cases hl : (rows.filter (fun r => (stopOf fl header r).ID == k)).getLast? with
    | none =>
      rw [hl] at hget
      simp only at hget
      simp [GoMap.get, hempty] at hget
    | some r =>
      rw [hl] at hget
      simp only [Option.some.injEq] at hget
      have hmem := List.mem_of_getLast?_eq_some hl
      rw [List.mem_filter] at hmem
      have hid : (stopOf fl header r).ID = k := by simpa using hmem.2
      rw [← hget]
      exact ⟨hid, r, hmem.1, hid⟩
  have hkept : ∀ r ∈ rows, ∃ stop, out.Stops.get (getField r header "stop_id") = some stop := by
    intro r hr
    have hkey : getField r header "stop_id" ∈ out.Stops.keys := by
      rw [hstops, GoMap.mem_keys_foldl_set]
      exact Or.inr ⟨r, hr, rfl⟩
    rw [GoMap.mem_keys_iff] at hkey
    exact Option.isSome_iff_exists.1 hkey
  refine ⟨out, hout, hstored, ⟨?_, ?_⟩, ?_⟩
  · intro hall r hr h0
    obtain ⟨stop, hstop⟩ := hkept r hr
    exact hall _ stop hstop ((hstored _ stop hstop).1.trans h0)
  · intro hrows k stop hget h0
    obtain ⟨hid, r, hr, hk⟩ := hstored k stop hget
    exact hrows r hr (hk.trans (hid.symm.trans h0))
  · rintro ⟨r, hr, h0⟩
    obtain ⟨stop, hstop⟩ := hkept r hr
    rw [h0] at hstop
    exact ⟨stop, hstop, (hstored _ stop hstop).1⟩

/-- Witness for C12 (amended): two rows, both with the stop id `1`. -/
theorem loadStops_ids_witness :
    ∃ out, loadStops intFloat duplicateStopsFS "data/stops.csv" NewGTFSData = .ok out ∧
      (∀ k stop, out.Stops.get k = some stop →
        stop.ID = k ∧ ∃ r ∈ [["1", "A"], ["1", "B"]], getField r
          (headerFrom 0 ["stop_id", "stop_name"] GoMap.empty) "stop_id" = k) ∧
      ((∀ k stop, out.Stops.get k = some stop → stop.ID ≠ "") ↔
        ∀ r ∈ [["1", "A"], ["1", "B"]], getField r
          (headerFrom 0 ["stop_id", "stop_name"] GoMap.empty) "stop_id" ≠ "") ∧
      ((∃ r ∈ [["1", "A"], ["1", "B"]], getField r
          (headerFrom 0 ["stop_id", "stop_name"] GoMap.empty) "stop_id" = "") →
        ∃ stop, out.Stops.get "" = some stop ∧ stop.ID = "") :=
  loadStops_ids intFloat duplicateStopsFS "data/stops.csv" NewGTFSData
    [["1", "A"], ["1", "B"]] (headerFrom 0 ["stop_id", "stop_name"] GoMap.empty) rfl rfl

end LoadStopsIds

/-! ## loadPlaces -/

section LoadPlacesClaims

variable {F : Type}

theorem foldl_places_proj (fl : Float64 F) (header : GoMap Nat) (rows : List (List String))
    (data : GTFSData F) :
    (rows.foldl (fun data r =>
        let place := placeOf fl header r
        if place.ID != "" then { data with Places := data.Places.set place.ID place }
        else data) data).Places =
      (rows.filter (fun r => (placeOf fl header r).ID != "")).foldl
        (fun m r => m.set (placeOf fl header r).ID (placeOf fl header r)) data.Places := by
  induction rows generalizing data with
  | nil => rfl
  | cons r rows ih =>
    simp only [List.foldl_cons, List.filter_cons]
    by_cases h : ((placeOf fl header r).ID != "") = true
    · simp only [h, if_true, List.foldl_cons]
      rw [ih]
    · simp only [h, Bool.false_eq_true, if_false]
      rw [ih]

/-- When `readCSV` succeeds, `loadPlaces` succeeds and its `Places` map is the result of
the assignments `Places[place.ID] = place` for the rows with a non-empty id, in order. -/
theorem loadPlaces_ok (fl : Float64 F) (fs : FileSystem) (path : String) (data : GTFSData F)
    (rows : List (List String)) (header : GoMap Nat)
    (hread : readCSV fs path = .ok (rows, header)) :
    ∃ out, loadPlaces fl fs path data = .ok out ∧
      out.Places = (rows.filter (fun r => (placeOf fl header r).ID != "")).foldl
        (fun m r => m.set (placeOf fl header r).ID (placeOf fl header r)) data.Places := by
  refine ⟨_, ?_, foldl_places_proj fl header rows data⟩
  simp only [loadPlaces, hread]

/-- C13: `loadPlaces` drops the rows with an empty `place_id`.  After loading any list of
rows into a dataset without places, a string `k` is a key of `Places` if and only if `k`
is non-empty and some row has the `place_id` `k`; and no place with an empty ID is
stored. -/
theorem loadPlaces_keys (fl : Float64 F) (fs : FileSystem) (path : String)
    (data : GTFSData F) (rows : List (List String)) (header : GoMap Nat)
    (hread : readCSV fs path = .ok (rows, header))
    (hempty : data.Places.entries = []) :
    ∃ out, loadPlaces fl fs path data = .ok out ∧
      (∀ k, k ∈ out.Places.keys ↔ (k ≠ "" ∧ ∃ r ∈ rows, getField r header "place_id" = k)) ∧
      (∀ k place, out.Places.get k = some place → place.ID ≠ "") := by
  obtain ⟨out, hout, hplaces⟩ := loadPlaces_ok fl fs path data rows header hread
  refine ⟨out, hout, ?_, ?_⟩
  · intro k
    rw [hplaces, GoMap.mem_keys_foldl_set]
    have hnot : k ∉ data.Places.keys := by simp [GoMap.keys, hempty]
    simp only [hnot, false_or, List.mem_filter, bne_iff_ne, ne_eq]
    constructor
    · rintro ⟨r, ⟨hr, hid⟩, hk⟩
      exact ⟨fun h0 => hid (hk.trans h0), r, hr, hk⟩
    · rintro ⟨hk0, r, hr, hk⟩
      have hk2 : (placeOf fl header r).ID = k := hk
      exact ⟨r, ⟨hr, fun h0 => hk0 (hk2.symm.trans h0)⟩, hk2⟩
  · intro k place hget
    rw [hplaces, GoMap.get_foldl_set] at hget
    cases hl : ((rows.filter (fun r => (placeOf fl header r).ID != "")).filter
        (fun r => (placeOf fl header r).ID == k)).getLast? with
    | none =>
      rw [hl] at hget
      simp only at hget
      simp [GoMap.get, hempty] at hget
    | some r =>
      rw [hl] at hget
      simp only [Option.some.injEq] at hget
      have hmem := List.mem_of_getLast?_eq_some hl
      rw [List.mem_filter, List.mem_filter] at hmem
      rw [← hget]
      simpa using hmem.1.2

/-- Witness for C13: of three rows, the one with the empty id leaves no entry. -/
theorem loadPlaces_keys_witness :
    ∃ out, loadPlaces intFloat placesFS "data/places.csv" NewGTFSData = .ok out ∧
      (∀ k, k ∈ out.Places.keys ↔ (k ≠ "" ∧
        ∃ r ∈ [["k1", "Kiosk"], ["", "Nameless"], ["k2", "Office"]],
          getField r (headerFrom 0 ["place_id", "place_name"] GoMap.empty) "place_id" = k)) ∧
      (∀ k place, out.Places.get k = some place → place.ID ≠ "") :=
  loadPlaces_keys intFloat placesFS "data/places.csv" NewGTFSData
    [["k1", "Kiosk"], ["", "Nameless"], ["k2", "Office"]]
    (headerFrom 0 ["place_id", "place_name"] GoMap.empty) rfl rfl

theorem loadPlaces_example :
    (loadPlaces intFloat placesFS "data/places.csv" NewGTFSData).toOption.map
      (fun out => out.Places.keys) = some ["k2", "k1"] := by
  decide

end LoadPlacesClaims

/-! ## readCSV -/

theorem headerFrom_get_of_not_mem (i : Nat) (cols : List String) (header : GoMap Nat)
    (name : String) (h : name ∉ cols) :
    (headerFrom i cols header).get name = header.get name := by
  induction cols generalizing i header with
  | nil => rfl
  | cons c cols ih =>
    rw [List.mem_cons, not_or] at h
    simp only [headerFrom]
    rw [ih _ _ h.2, GoMap.get_set_ne _ _ _ _ h.1]

theorem headerFrom_get_last (i : Nat) (pre : List String) (name : String)
    (post : List String) (header : GoMap Nat) (h : name ∉ post) :
    (headerFrom i (pre ++ name :: post) header).get name = some (i + pre.length) := by
  induction pre generalizing i header with
  | nil =>
    simp only [List.nil_append, headerFrom, List.length_nil, Nat.add_zero]
    rw [headerFrom_get_of_not_mem _ _ _ _ h, GoMap.get_set_self]
  | cons c pre ih =>
    have hstep : headerFrom i (c :: pre ++ name :: post) header =
        headerFrom (i + 1) (pre ++ name :: post) (header.set c i) := rfl
    rw [hstep, ih, List.length_cons]
    congr 1
    omega

/-- C17: for the list of records parsed from a file, `readCSV` fails, with the error
`empty CSV file`, if and only if the list has no records; otherwise it returns every
record after the first as the data rows (none for a header-only file) and a header map
whose keys are the column names of the first record, each sent to its index, and to the
index of its last occurrence when the name is repeated. -/
theorem readCSV_spec (fs : FileSystem) (path : String) (records : List (List String))
    (hread : fs.ReadAll path = .ok records) :
    ((∃ err, readCSV fs path = .error err) ↔ records = []) ∧
    (records = [] → readCSV fs path = .error "empty CSV file") ∧
    (∀ first rest, records = first :: rest →
      ∃ header, readCSV fs path = .ok (rest, header) ∧
        (∀ name, name ∈ header.keys ↔ name ∈ first) ∧
        (∀ pre name post, first = pre ++ name :: post → name ∉ post →
          header.get name = some pre.length)) := by
  refine ⟨?_, ?_, ?_⟩
  · constructor
    · rintro ⟨err, herr⟩
      cases records with
      | nil => rfl
      | cons first rest => simp only [readCSV, hread] at herr; cases herr
    · rintro rfl
      exact ⟨"empty CSV file", by simp only [readCSV, hread]⟩
  · rintro rfl
    simp only [readCSV, hread]
  · rintro first rest rfl
    refine ⟨headerFrom 0 first GoMap.empty, by simp only [readCSV, hread], ?_, ?_⟩
    · intro name
      rw [GoMap.mem_keys_iff]
      by_cases hmem : name ∈ first
      · obtain ⟨pre, post, hsplit, hpost⟩ : ∃ pre post, first = pre ++ name :: post ∧
            name ∉ post := by
          have hrev : name ∈ first.reverse := List.mem_reverse.2 hmem
          obtain ⟨s, t, hst, hs⟩ := List.eq_append_cons_of_mem hrev
          refine ⟨t.reverse, s.reverse, ?_, fun h => hs (List.mem_reverse.1 h)⟩
          have := congrArg List.reverse hst
          simpa using this
        rw [hsplit, headerFrom_get_last 0 pre name post _ hpost]
        simp
      · rw [headerFrom_get_of_not_mem _ _ _ _ hmem]
        simp [GoMap.get_empty, hmem]
    · rintro pre name post rfl hpost
      rw [headerFrom_get_last 0 pre name post _ hpost, Nat.zero_add]

/-- Witness for C17: a header row that repeats `stop_id` at the indices 0 and 2. -/
theorem readCSV_spec_witness :
    ∃ header, readCSV repeatedColumnFS "data/stops.csv" = .ok ([["1", "A", "2"]], header) ∧
      (∀ name, name ∈ header.keys ↔ name ∈ ["stop_id", "stop_name", "stop_id"]) ∧
      (∀ pre name post, ["stop_id", "stop_name", "stop_id"] = pre ++ name :: post →
        name ∉ post → header.get name = some pre.length) :=
  (readCSV_spec repeatedColumnFS "data/stops.csv"
    [["stop_id", "stop_name", "stop_id"], ["1", "A", "2"]] rfl).2.2
    ["stop_id", "stop_name", "stop_id"] [["1", "A", "2"]] rfl

theorem readCSV_examples :
    ((readCSV repeatedColumnFS "data/stops.csv").toOption.bind
      (fun res => res.2.get "stop_id")) = some 2 ∧
    (readCSV repeatedColumnFS "data/empty.csv").toOption.isNone = true ∧
    (readCSV repeatedColumnFS "data/absent.csv").toOption.isNone = true := by
  refine ⟨by decide, by decide, by decide⟩

/-! ## Column order -/

section ColumnOrder

variable {F : Type}

theorem lookup_eq_none_of_not_mem {V : Type} (cols : List (String × V)) (name : String)
    (h : name ∉ cols.map Prod.fst) : cols.lookup name = none := by
  induction cols with
  | nil => rfl
  | cons c cols ih =>
    obtain ⟨a, b⟩ := c
    simp only [List.map_cons, List.mem_cons, not_or] at h
    have hna : (name == a) = false := by simpa using h.1
    simp only [List.lookup_cons, hna]
    exact ih h.2

theorem lookup_append_of_not_mem {V : Type} (pre post : List (String × V)) (name : String)
    (h : name ∉ pre.map Prod.fst) : (pre ++ post).lookup name = post.lookup name := by
  induction pre with
  | nil => rfl
  | cons c pre ih =>
    obtain ⟨a, b⟩ := c
    simp only [List.map_cons, List.mem_cons, not_or] at h
    have hna : (name == a) = false := by simpa using h.1
    simp only [List.cons_append, List.lookup_cons, hna]
    exact ih h.2

theorem lookup_eq_some_iff_mem {V : Type} (cols : List (String × V))
    (hnodup : (cols.map Prod.fst).Nodup) (name : String) (v : V) :
    cols.lookup name = some v ↔ (name, v) ∈ cols := by
  induction cols with
  | nil => simp
  | cons c cols ih =>
    obtain ⟨a, b⟩ := c
    simp only [List.map_cons, List.nodup_cons] at hnodup
    by_cases hna : name = a
    · subst hna
      simp only [List.lookup_cons, beq_self_eq_true, Option.some.injEq, List.mem_cons,
        Prod.mk.injEq, true_and]
      constructor
      · intro h; exact Or.inl h.symm
      · rintro (h | h)
        · exact h.symm
        · exact absurd (List.mem_map_of_mem Prod.fst h) hnodup.1
    · have hna2 : (name == a) = false := by simpa using hna
      simp only [List.lookup_cons, hna2, List.mem_cons, Prod.mk.injEq, hna, false_and,
        false_or]
      exact ih hnodup.2

theorem lookup_perm {V : Type} (cols1 cols2 : List (String × V)) (hperm : cols1.Perm cols2)
    (hnodup : (cols2.map Prod.fst).Nodup) (name : String) :
    cols1.lookup name = cols2.lookup name := by
  have hnodup1 : (cols1.map Prod.fst).Nodup := (hperm.map Prod.fst).nodup_iff.2 hnodup
  apply Option.ext
  intro v
  rw [Option.mem_def, Option.mem_def, lookup_eq_some_iff_mem cols1 hnodup1,
    lookup_eq_some_iff_mem cols2 hnodup, hperm.mem_iff]

/-- With pairwise distinct column names, `getField` finds the cell that stands in the
same column as the field name. -/
theorem getField_eq_lookup (cols : List (String × String))
    (hnodup : (cols.map Prod.fst).Nodup) (field : String) :
    getField (cols.map Prod.snd) (headerFrom 0 (cols.map Prod.fst) GoMap.empty) field =
      (cols.lookup field).getD "" := by
  by_cases hmem : field ∈ cols.map Prod.fst
  · obtain ⟨c, hc, hcf⟩ := List.mem_map.1 hmem
    obtain ⟨pre, post, hsplit⟩ := List.append_of_mem hc
    obtain ⟨a, v⟩ := c
    simp only at hcf
    subst hcf
    subst hsplit
    simp only [List.map_append, List.map_cons] at hnodup ⊢
    have hpre : a ∉ pre.map Prod.fst := by
      intro h
      have := (List.nodup_append.1 hnodup).2.2
      exact this h (List.mem_cons_self _ _)
    have hpost : a ∉ post.map Prod.fst :=
      (List.nodup_cons.1 (List.nodup_append.1 hnodup).2.1).1
    rw [lookup_append_of_not_mem pre _ a hpre]
    simp only [getField, headerFrom_get_last 0 _ a _ _ hpost, Nat.zero_add,
      List.length_append, List.length_map, List.length_cons, List.lookup_cons,
      beq_self_eq_true, Option.getD_some]
    rw [if_pos (by omega)]
    rw [List.getD_eq_getElem?_getD, List.getElem?_append_right (by simp)]
    simp
  · rw [lookup_eq_none_of_not_mem cols field hmem]
    simp [getField, headerFrom_get_of_not_mem 0 _ GoMap.empty field hmem, GoMap.get_empty]

end ColumnOrder

section ColumnOrderClaim

variable {F : Type}

/-- C14: column order is irrelevant.  For a header row with pairwise distinct column
names and a data row of the same length, permuting the columns of the header row and of
the data row in the same way leaves the result of `getField`, with the header map built
as in `readCSV`, unchanged for every field name, and with it every entity that the
loaders build from the row. -/
theorem column_order_irrelevant (fl : Float64 F) (hdr row hdr2 row2 : List String)
    (hlen : hdr.length = row.length) (hlen2 : hdr2.length = row2.length)
    (hnodup : hdr.Nodup) (hperm : (hdr2.zip row2).Perm (hdr.zip row)) :
    (∀ field, getField row2 (headerFrom 0 hdr2 GoMap.empty) field =
      getField row (headerFrom 0 hdr GoMap.empty) field) ∧
    agencyOf (headerFrom 0 hdr2 GoMap.empty) row2
      = agencyOf (headerFrom 0 hdr GoMap.empty) row ∧
    stopOf fl (headerFrom 0 hdr2 GoMap.empty) row2
      = stopOf fl (headerFrom 0 hdr GoMap.empty) row ∧
    routeOf (headerFrom 0 hdr2 GoMap.empty) row2
      = routeOf (headerFrom 0 hdr GoMap.empty) row ∧
    tripOf (headerFrom 0 hdr2 GoMap.empty) row2
      = tripOf (headerFrom 0 hdr GoMap.empty) row ∧
    calendarOf (headerFrom 0 hdr2 GoMap.empty) row2
      = calendarOf (headerFrom 0 hdr GoMap.empty) row ∧
    shapePointOf fl (headerFrom 0 hdr2 GoMap.empty) row2
      = shapePointOf fl (headerFrom 0 hdr GoMap.empty) row ∧
    placeOf fl (headerFrom 0 hdr2 GoMap.empty) row2
      = placeOf fl (headerFrom 0 hdr GoMap.empty) row := by
  have hfst : (hdr.zip row).map Prod.fst = hdr := List.map_fst_zip _ _ (le_of_eq hlen)
  have hsnd : (hdr.zip row).map Prod.snd = row := List.map_snd_zip _ _ (le_of_eq hlen.symm)
  have hfst2 : (hdr2.zip row2).map Prod.fst = hdr2 := List.map_fst_zip _ _ (le_of_eq hlen2)
  have hsnd2 : (hdr2.zip row2).map Prod.snd = row2 :=
    List.map_snd_zip _ _ (le_of_eq hlen2.symm)
  have hnd : ((hdr.zip row).map Prod.fst).Nodup := by rw [hfst]; exact hnodup
  have hnd2 : ((hdr2.zip row2).map Prod.fst).Nodup := (hperm.map Prod.fst).nodup_iff.2 hnd
  have hfield : ∀ field, getField row2 (headerFrom 0 hdr2 GoMap.empty) field =
      getField row (headerFrom 0 hdr GoMap.empty) field := by
    intro field
    have h1 := getField_eq_lookup (hdr.zip row) hnd field
    have h2 := getField_eq_lookup (hdr2.zip row2) hnd2 field
    rw [hfst, hsnd] at h1
    rw [hfst2, hsnd2] at h2
    rw [h1, h2, lookup_perm _ _ hperm hnd field]
  refine ⟨hfield, ?_, ?_, ?_, ?_, ?_, ?_, ?_⟩
  · simp only [agencyOf, hfield]
  · simp only [stopOf, getFieldInt, getFieldFloat, hfield]
  · simp only [routeOf, getFieldInt, hfield]
  · simp only [tripOf, getFieldInt, hfield]
  · simp only [calendarOf, getFieldInt, hfield]
  · simp only [shapePointOf, getFieldInt, getFieldFloat, hfield]
  · simp only [placeOf, getFieldFloat, hfield]

/-- Witness for C14: the two columns `stop_id` and `stop_name`, swapped. -/
theorem column_order_irrelevant_witness :
    stopOf intFloat (headerFrom 0 ["stop_name", "stop_id"] GoMap.empty) ["A", "1"]
      = stopOf intFloat (headerFrom 0 ["stop_id", "stop_name"] GoMap.empty) ["1", "A"] :=
  (column_order_irrelevant intFloat ["stop_id", "stop_name"] ["1", "A"]
    ["stop_name", "stop_id"] ["A", "1"] rfl rfl (by decide)
    (List.Perm.swap _ _ [])).2.2.1

end ColumnOrderClaim

/-! ## What each loader changes -/

section LoaderEquations

variable {F : Type}

theorem loadAgencies_eq (fs : FileSystem) (path : String) (data : GTFSData F)
    (rows : List (List String)) (header : GoMap Nat)
    (hread : readCSV fs path = .ok (rows, header)) :
    loadAgencies fs path data = .ok { data with
      Agencies := rows.foldl (fun m r => m.set (agencyOf header r).ID (agencyOf header r))
        data.Agencies } := by
  simp only [loadAgencies, hread]
  congr 1
  clear hread
  induction rows generalizing data with
  | nil => rfl
  | cons r rows ih => simp only [List.foldl_cons]; rw [ih]

theorem loadStops_eq (fl : Float64 F) (fs : FileSystem) (path : String) (data : GTFSData F)
    (rows : List (List String)) (header : GoMap Nat)
    (hread : readCSV fs path = .ok (rows, header)) :
    loadStops fl fs path data = .ok { data with
      Stops := rows.foldl (fun m r => m.set (stopOf fl header r).ID (stopOf fl header r))
        data.Stops } := by
  simp only [loadStops, hread]
  congr 1
  clear hread
  induction rows generalizing data with
  | nil => rfl
  | cons r rows ih => simp only [List.foldl_cons]; rw [ih]

theorem loadRoutes_eq (fs : FileSystem) (path : String) (data : GTFSData F)
    (rows : List (List String)) (header : GoMap Nat)
    (hread : readCSV fs path = .ok (rows, header)) :
    loadRoutes fs path data = .ok { data with
      Routes := rows.foldl (fun m r => m.set (routeOf header r).ID (routeOf header r))
        data.Routes } := by
  simp only [loadRoutes, hread]
  congr 1
  clear hread
  induction rows generalizing data with
  | nil => rfl
  | cons r rows ih => simp only [List.foldl_cons]; rw [ih]

theorem loadTrips_eq (fs : FileSystem) (path : String) (data : GTFSData F)
    (rows : List (List String)) (header : GoMap Nat)
    (hread : readCSV fs path = .ok (rows, header)) :
    loadTrips fs path data = .ok { data with
      Trips := rows.foldl (fun m r => m.set (tripOf header r).TripID (tripOf header r))
        data.Trips } := by
  simp only [loadTrips, hread]
  congr 1
  clear hread
  induction rows generalizing data with
  | nil => rfl
  | cons r rows ih => simp only [List.foldl_cons]; rw [ih]

theorem loadCalendar_eq (fs : FileSystem) (path : String) (data : GTFSData F)
    (rows : List (List String)) (header : GoMap Nat)
    (hread : readCSV fs path = .ok (rows, header)) :
    loadCalendar fs path data = .ok { data with
      Calendars := rows.foldl
        (fun m r => m.set (calendarOf header r).ServiceID (calendarOf header r))
        data.Calendars } := by
  simp only [loadCalendar, hread]
  congr 1
  clear hread
  induction rows generalizing data with
  | nil => rfl
  | cons r rows ih => simp only [List.foldl_cons]; rw [ih]

theorem loadPlaces_eq (fl : Float64 F) (fs : FileSystem) (path : String) (data : GTFSData F)
    (rows : List (List String)) (header : GoMap Nat)
    (hread : readCSV fs path = .ok (rows, header)) :
    loadPlaces fl fs path data = .ok { data with
      Places := (rows.filter (fun r => (placeOf fl header r).ID != "")).foldl
        (fun m r => m.set (placeOf fl header r).ID (placeOf fl header r)) data.Places } := by
  simp only [loadPlaces, hread]
  congr 1
  clear hread
  induction rows generalizing data with
  | nil => rfl
  | cons r rows ih =>
    simp only [List.foldl_cons, List.filter_cons]
    by_cases h : ((placeOf fl header r).ID != "") = true
    · simp only [h, if_true, List.foldl_cons]
      rw [ih]
    · simp only [h, Bool.false_eq_true, if_false]
      rw [ih]

theorem appendShapes_eq (fl : Float64 F) (header : GoMap Nat) (rows : List (List String))
    (data : GTFSData F) :
    appendShapes fl header rows data =
      { data with Shapes := (appendShapes fl header rows data).Shapes } := by
  unfold appendShapes
  induction rows generalizing data with
  | nil => rfl
  | cons r rows ih => simp only [List.foldl_cons]; rw [ih]

theorem sortShapes_eq (sorter : SliceSorter (ShapePoint F)) (keys : List String)
    (data : GTFSData F) :
    sortShapes sorter keys data =
      { data with Shapes := (sortShapes sorter keys data).Shapes } := by
  unfold sortShapes
  induction keys generalizing data with
  | nil => rfl
  | cons k keys ih => simp only [List.foldl_cons]; rw [ih]

/-- The function `loadShapes` changes the `Shapes` map only. -/
theorem loadShapes_eq (fl : Float64 F) (sorter : SliceSorter (ShapePoint F)) (rng : MapRange)
    (fs : FileSystem) (path : String) (data out : GTFSData F)
    (hload : loadShapes fl sorter rng fs path data = .ok out) :
    out = { data with Shapes := out.Shapes } := by
  unfold loadShapes at hload
  cases hr : readCSV fs path with
  | error err => rw [hr] at hload; cases hload
  | ok res =>
    obtain ⟨rows, header⟩ := res
    rw [hr] at hload
    simp only [Except.ok.injEq] at hload
    rw [← hload, sortShapes_eq, appendShapes_eq]

theorem foldl_stopsList_eq (l : List (String × Stop F)) (data : GTFSData F) :
    l.foldl (fun data e => { data with StopsList := data.StopsList ++ [e.2] }) data =
      { data with StopsList := data.StopsList ++ l.map Prod.snd } := by
  induction l generalizing data with
  | nil => simp
  | cons e l ih =>
    simp only [List.foldl_cons, List.map_cons]
    rw [ih]
    simp

theorem foldl_routesList_eq (l : List (String × Route)) (data : GTFSData F) :
    l.foldl (fun data e => { data with RoutesList := data.RoutesList ++ [e.2] }) data =
      { data with RoutesList := data.RoutesList ++ l.map Prod.snd } := by
  induction l generalizing data with
  | nil => simp
  | cons e l ih =>
    simp only [List.foldl_cons, List.map_cons]
    rw [ih]
    simp

/-- The two loops at the end of `LoadGTFS` append the values of `Stops` and of `Routes`,
in visit order, to the two lists and change nothing else. -/
theorem buildLists_eq (rng : MapRange) (data : GTFSData F) :
    buildLists rng data = { data with
      StopsList := data.StopsList ++ (rng.order data.Stops).map Prod.snd
      RoutesList := data.RoutesList ++ (rng.order data.Routes).map Prod.snd } := by
  unfold buildLists
  simp only
  rw [foldl_routesList_eq, foldl_stopsList_eq]

end LoaderEquations

/-! ## Invariants of the loaded dataset -/

namespace GoMap

variable {V : Type}

theorem keyed_empty (id : V → String) : (empty : GoMap V).Keyed id := by
  intro k v h
  cases h

theorem keyed_set (id : V → String) (m : GoMap V) (v : V) (h : m.Keyed id) :
    (m.set (id v) v).Keyed id := by
  intro k w hget
  rw [get_set] at hget
  by_cases hk : k = id v
  · rw [if_pos hk] at hget
    cases hget
    exact hk.symm
  · rw [if_neg hk] at hget
    exact h k w hget

theorem keyed_foldl_set {R : Type} (id : V → String) (val : R → V) (rows : List R)
    (m : GoMap V) (h : m.Keyed id) :
    (rows.foldl (fun m r => m.set (id (val r)) (val r)) m).Keyed id := by
  induction rows generalizing m with
  | nil => exact h
  | cons r rows ih =>
    simp only [List.foldl_cons]
    exact ih _ (keyed_set id m (val r) h)

theorem get_of_mem_entries (m : GoMap V) (k : String) (v : V) (h : (k, v) ∈ m.entries) :
    m.get k = some v :=
  (lookup_eq_some_iff_mem m.entries m.nodup k v).2 h

theorem map_id_eq_keys_of_keyed (id : V → String) (m : GoMap V) (h : m.Keyed id)
    (l : List (String × V)) (hl : ∀ e ∈ l, e ∈ m.entries) :
    (l.map Prod.snd).map id = l.map Prod.fst := by
  rw [List.map_map]
  apply List.map_congr_left
  intro e he
  exact h e.1 e.2 (get_of_mem_entries m e.1 e.2 (hl e he))

end GoMap

section LoadInvariants

variable {F : Type}

theorem keyedById_new : KeyedById (NewGTFSData : GTFSData F) :=
  ⟨GoMap.keyed_empty _, GoMap.keyed_empty _, GoMap.keyed_empty _, GoMap.keyed_empty _,
    GoMap.keyed_empty _, GoMap.keyed_empty _⟩

/-- Every loader of the table of `LoadGTFS` keeps the maps keyed by id and leaves the two
enumeration lists alone. -/
theorem loaders_preserve (fl : Float64 F) (sorter : SliceSorter (ShapePoint F))
    (rng : MapRange) (fs : FileSystem) (l : Loader F) (hl : l ∈ loaders fl sorter rng fs)
    (path : String) (data out : GTFSData F) (hload : l.load path data = .ok out)
    (hkeyed : KeyedById data) :
    KeyedById out ∧ out.StopsList = data.StopsList ∧ out.RoutesList = data.RoutesList := by
  obtain ⟨hA, hS, hR, hT, hC, hP⟩ := hkeyed
  simp only [loaders, List.mem_cons, List.mem_singleton, List.not_mem_nil, or_false] at hl
  rcases hl with rfl | rfl | rfl | rfl | rfl | rfl | rfl
  · simp only at hload
    cases hr : readCSV fs path with
    | error err => simp only [loadAgencies, hr] at hload; cases hload
    | ok res =>
      obtain ⟨rows, header⟩ := res
      rw [loadAgencies_eq fs path data rows header hr] at hload
      cases hload
      exact ⟨⟨GoMap.keyed_foldl_set Agency.ID (agencyOf header) rows _ hA, hS, hR, hT, hC, hP⟩,
        rfl, rfl⟩
  · simp only at hload
    cases hr : readCSV fs path with
    | error err => simp only [loadStops, hr] at hload; cases hload
    | ok res =>
      obtain ⟨rows, header⟩ := res
      rw [loadStops_eq fl fs path data rows header hr] at hload
      cases hload
      exact ⟨⟨hA, GoMap.keyed_foldl_set Stop.ID (stopOf fl header) rows _ hS, hR, hT, hC, hP⟩,
        rfl, rfl⟩
  · simp only at hload
    cases hr : readCSV fs path with
    | error err => simp only [loadRoutes, hr] at hload; cases hload
    | ok res =>
      obtain ⟨rows, header⟩ := res
      rw [loadRoutes_eq fs path data rows header hr] at hload
      cases hload
      exact ⟨⟨hA, hS, GoMap.keyed_foldl_set Route.ID (routeOf header) rows _ hR, hT, hC, hP⟩,
        rfl, rfl⟩
  · simp only at hload
    cases hr : readCSV fs path with
    | error err => simp only [loadTrips, hr] at hload; cases hload
    | ok res =>
      obtain ⟨rows, header⟩ := res
      rw [loadTrips_eq fs path data rows header hr] at hload
      cases hload
      exact ⟨⟨hA, hS, hR, GoMap.keyed_foldl_set Trip.TripID (tripOf header) rows _ hT, hC, hP⟩,
        rfl, rfl⟩
  · simp only at hload
    cases hr : readCSV fs path with
    | error err => simp only [loadCalendar, hr] at hload; cases hload
    | ok res =>
      obtain ⟨rows, header⟩ := res
      rw [loadCalendar_eq fs path data rows header hr] at hload
      cases hload
      exact ⟨⟨hA, hS, hR, hT,
        GoMap.keyed_foldl_set Calendar.ServiceID (calendarOf header) rows _ hC, hP⟩, rfl, rfl⟩
  · simp only at hload
    have heq := loadShapes_eq fl sorter rng fs path data out hload
    rw [heq]
    exact ⟨⟨hA, hS, hR, hT, hC, hP⟩, rfl, rfl⟩
  · simp only at hload
    cases hr : readCSV fs path with
    | error err => simp only [loadPlaces, hr] at hload; cases hload
    | ok res =>
      obtain ⟨rows, header⟩ := res
      rw [loadPlaces_eq fl fs path data rows header hr] at hload
      cases hload
      exact ⟨⟨hA, hS, hR, hT, hC,
        GoMap.keyed_foldl_set Place.ID (placeOf fl header) _ _ hP⟩, rfl, rfl⟩

theorem runLoaders_preserve (fs : FileSystem) (dataDir : String)
    (P : GTFSData F → Prop) (ls : List (Loader F))
    (hls : ∀ l ∈ ls, ∀ path data out, l.load path data = .ok out → P data → P out)
    (data out : GTFSData F) (hrun : runLoaders fs dataDir ls data = .ok out)
    (hdata : P data) : P out := by
  induction ls generalizing data with
  | nil =>
    simp only [runLoaders] at hrun
    cases hrun
    exact hdata
  | cons l ls ih =>
    have ihls := ih (fun l2 h2 => hls l2 (List.mem_cons_of_mem _ h2))
    simp only [runLoaders] at hrun
    cases hl : l.load (fs.Join dataDir l.file) data with
    | error err =>
      rw [hl] at hrun
      simp only at hrun
      by_cases hreq : l.req = true
      · rw [if_pos hreq] at hrun; cases hrun
      · rw [if_neg hreq] at hrun
        exact ihls data hrun hdata
    | ok mid =>
      rw [hl] at hrun
      simp only at hrun
      exact ihls mid hrun (hls l (List.mem_cons_self _ _) _ data mid hl hdata)

/-- A dataset returned by `LoadGTFS` is the result of the two list-building loops on a
dataset that is keyed by id and whose lists are still empty. -/
theorem LoadGTFS_ok_inv (fl : Float64 F) (sorter : SliceSorter (ShapePoint F))
    (rng : MapRange) (fs : FileSystem) (dataDir : String) (out : GTFSData F)
    (hload : LoadGTFS fl sorter rng fs dataDir = .ok out) :
    ∃ data, out = buildLists rng data ∧ KeyedById data ∧ data.StopsList = [] ∧
      data.RoutesList = [] := by
  unfold LoadGTFS at hload
  cases hrun : runLoaders fs dataDir (loaders fl sorter rng fs) NewGTFSData with
  | error err => rw [hrun] at hload; cases hload
  | ok data =>
    rw [hrun] at hload
    simp only [Except.ok.injEq] at hload
    refine ⟨data, hload.symm, ?_⟩
    refine runLoaders_preserve fs dataDir
      (fun d => KeyedById d ∧ d.StopsList = [] ∧ d.RoutesList = [])
      (loaders fl sorter rng fs) ?_ NewGTFSData data hrun ⟨keyedById_new, rfl, rfl⟩
    intro l hl path d o ho hd
    obtain ⟨hk, hs, hr⟩ := loaders_preserve fl sorter rng fs l hl path d o ho hd.1
    exact ⟨hk, hs.trans hd.2.1, hr.trans hd.2.2⟩

end LoadInvariants

section LoadedDatasetClaims

variable {F : Type}

theorem sampleData_loaded :
    LoadGTFS intFloat (stableSorter _) MapRange.stored sampleFS "data" = .ok sampleData :=
  rfl

/-- C19: every keyed map of the dataset is keyed by the id of the entity it holds.  Each
loader of `LoadGTFS` keeps this property, whatever the rows, and so in every dataset
that `LoadGTFS` returns `Stops[k].ID = k`, `Routes[k].ID = k`, `Trips[k].TripID = k`,
`Agencies[k].ID = k`, `Calendars[k].ServiceID = k` and `Places[k].ID = k` for every key
`k` of the respective map. -/
theorem loaded_maps_keyed_by_id (fl : Float64 F) (sorter : SliceSorter (ShapePoint F))
    (rng : MapRange) (fs : FileSystem) :
    (∀ l ∈ loaders fl sorter rng fs, ∀ path data out,
      KeyedById data → l.load path data = .ok out → KeyedById out) ∧
    (∀ dataDir out, LoadGTFS fl sorter rng fs dataDir = .ok out →
      (∀ k v, out.Stops.get k = some v → v.ID = k) ∧
      (∀ k v, out.Routes.get k = some v → v.ID = k) ∧
      (∀ k v, out.Trips.get k = some v → v.TripID = k) ∧
      (∀ k v, out.Agencies.get k = some v → v.ID = k) ∧
      (∀ k v, out.Calendars.get k = some v → v.ServiceID = k) ∧
      (∀ k v, out.Places.get k = some v → v.ID = k)) := by
  constructor
  · intro l hl path data out hkeyed hload
    exact (loaders_preserve fl sorter rng fs l hl path data out hload hkeyed).1
  · intro dataDir out hload
    obtain ⟨data, hout, hkeyed, _, _⟩ := LoadGTFS_ok_inv fl sorter rng fs dataDir out hload
    obtain ⟨hA, hS, hR, hT, hC, hP⟩ := hkeyed
    rw [hout, buildLists_eq]
    exact ⟨hS, hR, hT, hA, hC, hP⟩

/-- Witness for C19: the dataset loaded from `sampleFS`. -/
theorem loaded_maps_keyed_by_id_witness :
    (∀ k v, sampleData.Stops.get k = some v → v.ID = k) ∧
    (∀ k v, sampleData.Routes.get k = some v → v.ID = k) ∧
    (∀ k v, sampleData.Trips.get k = some v → v.TripID = k) ∧
    (∀ k v, sampleData.Agencies.get k = some v → v.ID = k) ∧
    (∀ k v, sampleData.Calendars.get k = some v → v.ServiceID = k) ∧
    (∀ k v, sampleData.Places.get k = some v → v.ID = k) :=
  (loaded_maps_keyed_by_id intFloat (stableSorter _) MapRange.stored sampleFS).2
    "data" sampleData sampleData_loaded

/-- C15: after a successful `LoadGTFS`, `StopsList` holds exactly the values of the
`Stops` map, each once (it is a rearrangement of the list of values, as long as the map
has keys, and no two of its entries share an ID), and `RoutesList` holds exactly the
values of the `Routes` map, each once; the order follows the unspecified visit order of
the maps. -/
theorem LoadGTFS_lists (fl : Float64 F) (sorter : SliceSorter (ShapePoint F))
    (rng : MapRange) (fs : FileSystem) (dataDir : String) (out : GTFSData F)
    (hload : LoadGTFS fl sorter rng fs dataDir = .ok out) :
    out.StopsList.Perm out.Stops.values ∧
    out.StopsList.length = out.Stops.len ∧
    (out.StopsList.map Stop.ID).Nodup ∧
    out.RoutesList.Perm out.Routes.values ∧
    out.RoutesList.length = out.Routes.len ∧
    (out.RoutesList.map Route.ID).Nodup := by
  obtain ⟨data, hout, hkeyed, hsl, hrl⟩ := LoadGTFS_ok_inv fl sorter rng fs dataDir out hload
  obtain ⟨_, hS, hR, _, _, _⟩ := hkeyed
  rw [hout, buildLists_eq]
  simp only [hsl, hrl, List.nil_append]
  have hps : ((rng.order data.Stops).map Prod.snd).Perm data.Stops.values :=
    (rng.perm data.Stops).map Prod.snd
  have hpr : ((rng.order data.Routes).map Prod.snd).Perm data.Routes.values :=
    (rng.perm data.Routes).map Prod.snd
  refine ⟨hps, ?_, ?_, hpr, ?_, ?_⟩
  · rw [hps.length_eq]; simp [GoMap.values, GoMap.len]
  · rw [GoMap.map_id_eq_keys_of_keyed Stop.ID data.Stops hS _
      (fun e he => (rng.perm data.Stops).mem_iff.1 he)]
    exact range_keys_nodup rng data.Stops
  · rw [hpr.length_eq]; simp [GoMap.values, GoMap.len]
  · rw [GoMap.map_id_eq_keys_of_keyed Route.ID data.Routes hR _
      (fun e he => (rng.perm data.Routes).mem_iff.1 he)]
    exact range_keys_nodup rng data.Routes

/-- Witness for C15: the dataset loaded from `sampleFS`, whose `stops.csv` has three rows
for two distinct ids. -/
theorem LoadGTFS_lists_witness :
    sampleData.StopsList.Perm sampleData.Stops.values ∧
    sampleData.StopsList.length = sampleData.Stops.len ∧
    (sampleData.StopsList.map Stop.ID).Nodup ∧
    sampleData.RoutesList.Perm sampleData.Routes.values ∧
    sampleData.RoutesList.length = sampleData.Routes.len ∧
    (sampleData.RoutesList.map Route.ID).Nodup :=
  LoadGTFS_lists intFloat (stableSorter _) MapRange.stored sampleFS "data" sampleData
    sampleData_loaded

theorem sampleData_lists :
    sampleData.StopsList.map Stop.ID = ["S1", "S2"] ∧
    sampleData.RoutesList.map Route.ID = ["R2", "R1"] ∧
    sampleData.Places.keys = ["K1"] := by
  refine ⟨by decide, by decide, by decide⟩

end LoadedDatasetClaims

/-! ## The Stops handler -/

section StopsHandlerClaims

variable {F : Type}

/-- C16: in the `Stops` handler, when the parameters `lat` and `lon` are both present and
parse as numbers and no `radius` is given, the stops returned are exactly
`findNearbyStops(lat, lon, 500)` and the count reported is their number; when a `radius`
is given and parses, that radius is used instead of 500. -/
theorem Stops_nearby (fl : Float64 F) (geo : Geo F) (h : Handler F)
    (lat lon : String) (latF lonF : F) (hlat : lat ≠ "") (hlon : lon ≠ "")
    (hlatF : fl.ParseFloat lat = some latF) (hlonF : fl.ParseFloat lon = some lonF) :
    Stops fl geo h lat lon "" = .ok
      { Stops := findNearbyStops fl geo h latF lonF (fl.ofNat 500)
        Count := (findNearbyStops fl geo h latF lonF (fl.ofNat 500)).length } ∧
    (∀ radiusStr radius, radiusStr ≠ "" → fl.ParseFloat radiusStr = some radius →
      Stops fl geo h lat lon radiusStr = .ok
        { Stops := findNearbyStops fl geo h latF lonF radius
          Count := (findNearbyStops fl geo h latF lonF radius).length }) := by
  have hlat2 : (lat == "") = false := by simpa using hlat
  have hlon2 : (lon == "") = false := by simpa using hlon
  constructor
  · simp [Stops, hlat2, hlon2, hlatF, hlonF]
  · intro radiusStr radius hne hrad
    have hne2 : (radiusStr != "") = true := by simpa using hne
    simp [Stops, hlat2, hlon2, hlatF, hlonF, hne2, hrad]

/-- Witness for C16: around the stop `near`, the request without a radius is answered
with the stops within 500, and the request with the radius 499 with those within 499. -/
theorem Stops_nearby_witness :
    Stops intFloat gridGeo ⟨twoStopsData, offlineClient Int⟩ "0" "0" "" = .ok
      { Stops := findNearbyStops intFloat gridGeo ⟨twoStopsData, offlineClient Int⟩ 0 0 500
        Count := (findNearbyStops intFloat gridGeo
          ⟨twoStopsData, offlineClient Int⟩ 0 0 500).length } ∧
    Stops intFloat gridGeo ⟨twoStopsData, offlineClient Int⟩ "0" "0" "499" = .ok
      { Stops := findNearbyStops intFloat gridGeo ⟨twoStopsData, offlineClient Int⟩ 0 0 499
        Count := (findNearbyStops intFloat gridGeo
          ⟨twoStopsData, offlineClient Int⟩ 0 0 499).length } :=
  ⟨(Stops_nearby intFloat gridGeo ⟨twoStopsData, offlineClient Int⟩ "0" "0" 0 0
      (by decide) (by decide) (by decide) (by decide)).1,
   (Stops_nearby intFloat gridGeo ⟨twoStopsData, offlineClient Int⟩ "0" "0" 0 0
      (by decide) (by decide) (by decide) (by decide)).2 "499" 499 (by decide) (by decide)⟩

theorem Stops_examples :
    Stops intFloat gridGeo ⟨twoStopsData, offlineClient Int⟩ "0" "0" "" = .ok
      { Stops := [stopAt "near" 0 0, stopAt "far" 0 500], Count := 2 } ∧
    Stops intFloat gridGeo ⟨twoStopsData, offlineClient Int⟩ "0" "0" "499" = .ok
      { Stops := [stopAt "near" 0 0], Count := 1 } ∧
    Stops intFloat gridGeo ⟨twoStopsData, offlineClient Int⟩ "0" "0" "wide"
      = .error "invalid radius parameter" 400 ∧
    Stops intFloat gridGeo ⟨twoStopsData, offlineClient Int⟩ "" "0" "499" = .ok
      { Stops := [stopAt "near" 0 0, stopAt "far" 0 500], Count := 2 } := by
  refine ⟨by decide, by decide, by decide, by decide⟩

end StopsHandlerClaims

/-! ## RouteShape and the visit order of the trips -/

section RouteShapeOrder

variable {F : Type}

theorem RouteShape_of_route (h : Handler F) (rng : MapRange) (routeID : String)
    (route : Route) (hne : routeID ≠ "") (hroute : h.gtfs.Routes.get routeID = some route) :
    RouteShape h rng routeID = .ok
      { RouteID := route.ID
        Points := scanTrips h.gtfs.Shapes route ((rng.order h.gtfs.Trips).map Prod.snd) } := by
  have hne2 : (routeID == "") = false := by simpa using hne
  simp only [RouteShape, hne2, Bool.false_eq_true, if_false, hroute]

/-- The scan of `RouteShape` ends with the points of a trip of the route that names an
existing shape, or, when the trips hold no such trip, with the empty sequence. -/
theorem scanTrips_cases (shapes : GoMap (List (ShapePoint F))) (route : Route)
    (trips : List Trip) :
    (∃ trip ∈ trips, trip.RouteID = route.ID ∧ trip.ShapeID ≠ "" ∧
      shapes.get trip.ShapeID = some (scanTrips shapes route trips)) ∨
    ((∀ trip ∈ trips, ¬ (trip.RouteID = route.ID ∧ trip.ShapeID ≠ "" ∧
        trip.ShapeID ∈ shapes.keys)) ∧ scanTrips shapes route trips = []) := by
  induction trips with
  | nil => right; exact ⟨fun _ h => absurd h (List.not_mem_nil _), rfl⟩
  | cons trip trips ih =>
    have hrest : (∃ t ∈ trips, t.RouteID = route.ID ∧ t.ShapeID ≠ "" ∧
          shapes.get t.ShapeID = some (scanTrips shapes route trips)) ∨
        ((∀ t ∈ trips, ¬ (t.RouteID = route.ID ∧ t.ShapeID ≠ "" ∧
          t.ShapeID ∈ shapes.keys)) ∧ scanTrips shapes route trips = []) := ih
    by_cases hm : trip.RouteID = route.ID ∧ trip.ShapeID ≠ ""
    · have hm2 : (trip.RouteID == route.ID && trip.ShapeID != "") = true := by
        simpa using hm
      cases hs : shapes.get trip.ShapeID with
      | some points =>
        left
        refine ⟨trip, List.mem_cons_self _ _, hm.1, hm.2, ?_⟩
        simp only [scanTrips, hm2, if_true, hs]
      | none =>
        have hscan : scanTrips shapes route (trip :: trips) = scanTrips shapes route trips := by
          simp only [scanTrips, hm2, if_true, hs]
        rw [hscan]
        rcases hrest with ⟨t, ht, h1, h2, h3⟩ | ⟨hall, hnil⟩
        · exact Or.inl ⟨t, List.mem_cons_of_mem _ ht, h1, h2, h3⟩
        · right
          refine ⟨?_, hnil⟩
          intro t ht
          rcases List.mem_cons.1 ht with rfl | ht
          · intro hq
            have := (GoMap.mem_keys_iff shapes t.ShapeID).1 hq.2.2
            rw [hs] at this
            cases this
          · exact hall t ht
    · have hm2 : (trip.RouteID == route.ID && trip.ShapeID != "") = false := by
        simpa using hm
      have hscan : scanTrips shapes route (trip :: trips) = scanTrips shapes route trips := by
        simp only [scanTrips, hm2, Bool.false_eq_true, if_false]
      rw [hscan]
      rcases hrest with ⟨t, ht, h1, h2, h3⟩ | ⟨hall, hnil⟩
      · exact Or.inl ⟨t, List.mem_cons_of_mem _ ht, h1, h2, h3⟩
      · right
        refine ⟨?_, hnil⟩
        intro t ht
        rcases List.mem_cons.1 ht with rfl | ht
        · intro hq
          exact hm ⟨hq.1, hq.2.1⟩
        · exact hall t ht

theorem emptyRouteIdData_loaded :
    LoadGTFS intFloat (stableSorter _) MapRange.stored emptyRouteIdFS "data"
      = .ok emptyRouteIdData :=
  rfl

/-- C18 (as stated) fails for the route id `""`: in the dataset loaded from
`emptyRouteIdFS` the empty string is a key of `Routes` and the trip `T1` has that
`RouteID`, a non-empty `ShapeID` and a shape that exists, yet `RouteShape` answers the
empty route id with the error 400 and returns no points. -/
theorem RouteShape_empty_route_key :
    "" ∈ emptyRouteIdData.Routes.keys ∧
    (∃ trip ∈ emptyRouteIdData.Trips.values, trip.RouteID = "" ∧ trip.ShapeID ≠ "" ∧
      trip.ShapeID ∈ emptyRouteIdData.Shapes.keys) ∧
    RouteShape ⟨emptyRouteIdData, offlineClient Int⟩ MapRange.stored ""
      = .error "route_id parameter required" 400 := by
  refine ⟨by decide, ⟨tripOf (headerFrom 0 ["route_id", "trip_id", "shape_id"] GoMap.empty)
    ["", "T1", "P1"], by decide, by decide, by decide, by decide⟩, by decide⟩

/-- C18 (amended): for every dataset, every non-empty route id that is a key of `Routes`
and every visit order of the `Trips` map, `RouteShape` returns `Shapes[t.ShapeID]` for
some trip `t` whose `RouteID` is the ID of the route stored under that key, whose
`ShapeID` is non-empty and is a key of `Shapes`, whenever such a trip exists, and an
empty sequence otherwise; so when all such trips name the same shape id, the answer does
not depend on the visit order. -/
theorem RouteShape_visit_order (h : Handler F) (routeID : String) (route : Route)
    (hne : routeID ≠ "") (hroute : h.gtfs.Routes.get routeID = some route) :
    (∀ rng : MapRange,
      (∃ trip ∈ h.gtfs.Trips.values, trip.RouteID = route.ID ∧ trip.ShapeID ≠ "" ∧
        trip.ShapeID ∈ h.gtfs.Shapes.keys) →
      ∃ trip ∈ h.gtfs.Trips.values, ∃ points, trip.RouteID = route.ID ∧ trip.ShapeID ≠ "" ∧
        h.gtfs.Shapes.get trip.ShapeID = some points ∧
        RouteShape h rng routeID = .ok { RouteID := route.ID, Points := points }) ∧
    (∀ rng : MapRange,
      (¬ ∃ trip ∈ h.gtfs.Trips.values, trip.RouteID = route.ID ∧ trip.ShapeID ≠ "" ∧
        trip.ShapeID ∈ h.gtfs.Shapes.keys) →
      RouteShape h rng routeID = .ok { RouteID := route.ID, Points := [] }) ∧
    ((∀ t1 ∈ h.gtfs.Trips.values, ∀ t2 ∈ h.gtfs.Trips.values,
        (t1.RouteID = route.ID ∧ t1.ShapeID ≠ "" ∧ t1.ShapeID ∈ h.gtfs.Shapes.keys) →
        (t2.RouteID = route.ID ∧ t2.ShapeID ≠ "" ∧ t2.ShapeID ∈ h.gtfs.Shapes.keys) →
        t1.ShapeID = t2.ShapeID) →
      ∀ rng1 rng2 : MapRange, RouteShape h rng1 routeID = RouteShape h rng2 routeID) := by
  have hvalues : ∀ (rng : MapRange) (trip : Trip),
      trip ∈ (rng.order h.gtfs.Trips).map Prod.snd ↔ trip ∈ h.gtfs.Trips.values :=
    fun rng trip => ((rng.perm h.gtfs.Trips).map Prod.snd).mem_iff
  have hkey : ∀ (k : String) (points : List (ShapePoint F)),
      h.gtfs.Shapes.get k = some points → k ∈ h.gtfs.Shapes.keys := by
    intro k points hk
    rw [GoMap.mem_keys_iff, hk]
    rfl
  refine ⟨?_, ?_, ?_⟩
  · intro rng hex
    rw [RouteShape_of_route h rng routeID route hne hroute]
    rcases scanTrips_cases h.gtfs.Shapes route ((rng.order h.gtfs.Trips).map Prod.snd) with
      ⟨t, ht, h1, h2, h3⟩ | ⟨hall, _⟩
    · exact ⟨t, (hvalues rng t).1 ht, _, h1, h2, h3, rfl⟩
    · obtain ⟨t, ht, hq⟩ := hex
      exact absurd hq (hall t ((hvalues rng t).2 ht))
  · intro rng hnex
    rw [RouteShape_of_route h rng routeID route hne hroute]
    rcases scanTrips_cases h.gtfs.Shapes route ((rng.order h.gtfs.Trips).map Prod.snd) with
      ⟨t, ht, h1, h2, h3⟩ | ⟨_, hnil⟩
    · exact absurd ⟨t, (hvalues rng t).1 ht, h1, h2, hkey _ _ h3⟩ hnex
    · rw [hnil]
  · intro hsame rng1 rng2
    rw [RouteShape_of_route h rng1 routeID route hne hroute,
      RouteShape_of_route h rng2 routeID route hne hroute]
    congr 2
    rcases scanTrips_cases h.gtfs.Shapes route ((rng1.order h.gtfs.Trips).map Prod.snd) with
      ⟨t1, ht1, a1, a2, a3⟩ | ⟨hall1, hnil1⟩
    · rcases scanTrips_cases h.gtfs.Shapes route
          ((rng2.order h.gtfs.Trips).map Prod.snd) with
        ⟨t2, ht2, b1, b2, b3⟩ | ⟨hall2, _⟩
      · have hid := hsame t1 ((hvalues rng1 t1).1 ht1) t2 ((hvalues rng2 t2).1 ht2)
          ⟨a1, a2, hkey _ _ a3⟩ ⟨b1, b2, hkey _ _ b3⟩
        rw [hid, b3] at a3
        exact (Option.some.inj a3).symm
      · exact absurd ⟨a1, a2, hkey _ _ a3⟩
          (hall2 t1 ((hvalues rng2 t1).2 ((hvalues rng1 t1).1 ht1)))
    · rcases scanTrips_cases h.gtfs.Shapes route
          ((rng2.order h.gtfs.Trips).map Prod.snd) with
        ⟨t2, ht2, b1, b2, b3⟩ | ⟨_, hnil2⟩
      · exact absurd ⟨b1, b2, hkey _ _ b3⟩
          (hall1 t2 ((hvalues rng1 t2).2 ((hvalues rng2 t2).1 ht2)))
      · rw [hnil1, hnil2]

/-- Witness for C18 (amended): two trips of route `R` that name the same shape, visited
in the stored order and in the reverse order. -/
theorem RouteShape_visit_order_witness :
    RouteShape ⟨sameShapeData, offlineClient Int⟩ MapRange.stored "R"
      = RouteShape ⟨sameShapeData, offlineClient Int⟩ MapRange.reversed "R" :=
  (RouteShape_visit_order ⟨sameShapeData, offlineClient Int⟩ "R" routeR
    (by decide) (by decide)).2.2 (by decide) MapRange.stored MapRange.reversed

theorem RouteShape_order_examples :
    RouteShape ⟨missingShapeData, offlineClient Int⟩ MapRange.reversed "R"
      = .ok ⟨"R", [⟨"s2", 1, 2, 0⟩]⟩ ∧
    RouteShape ⟨sameShapeData, offlineClient Int⟩ MapRange.reversed "R"
      = .ok ⟨"R", [⟨"s2", 1, 2, 0⟩]⟩ := by
  refine ⟨by decide, by decide⟩

end RouteShapeOrder

/-! ## loadShapes keeps every point -/

section LoadShapesPerm

variable {F : Type}

/-- C20: `loadShapes` neither loses nor invents points.  After loading any list of rows
into a dataset without shapes, with any `sort.Slice` that meets its contract and any map
visit order, a shape id `k` is a key of `Shapes` if and only if some row carries it (the
empty string included: rows with an empty `shape_id` are grouped under the key `""`), and
`Shapes[k]` is a permutation of the list of points built from exactly the rows whose
`shape_id` is `k`, so every point stored under `k` has `ShapeID = k`. -/
theorem loadShapes_perm (fl : Float64 F) (sorter : SliceSorter (ShapePoint F))
    (rng : MapRange) (fs : FileSystem) (path : String) (data : GTFSData F)
    (rows : List (List String)) (header : GoMap Nat)
    (hread : readCSV fs path = .ok (rows, header))
    (hempty : data.Shapes.entries = []) :
    ∃ out, loadShapes fl sorter rng fs path data = .ok out ∧
      (∀ k, k ∈ out.Shapes.keys ↔ ∃ r ∈ rows, getField r header "shape_id" = k) ∧
      (∀ k points, out.Shapes.get k = some points →
        points.Perm ((rows.filter (fun r => getField r header "shape_id" == k)).map
          (shapePointOf fl header)) ∧
        ∀ p ∈ points, p.ShapeID = k) := by
  obtain ⟨out, hout, hget⟩ := loadShapes_ok fl sorter rng fs path data rows header hread
  have hold : ∀ k, k ∉ data.Shapes.keys := not_mem_keys_of_entries_nil _ hempty
  have hnone : ∀ k, data.Shapes.get k = none := get_of_entries_nil _ hempty
  refine ⟨out, hout, ?_, ?_⟩
  · intro k
    rw [GoMap.mem_keys_iff, hget k]
    by_cases hk : ∃ r ∈ rows, getField r header "shape_id" = k
    · rw [if_pos (Or.inr hk)]
      simp only [Option.isSome_some, true_iff]
      exact hk
    · rw [if_neg (fun h => h.elim (hold k) hk)]
      simp only [Option.isSome_none, Bool.false_eq_true, false_iff]
      exact hk
  · intro k points hpoints
    rw [hget k] at hpoints
    by_cases hk : ∃ r ∈ rows, getField r header "shape_id" = k
    · rw [if_pos (Or.inr hk), hnone k] at hpoints
      simp only [Option.getD_none, List.nil_append, Option.some.injEq] at hpoints
      have hperm : points.Perm ((rows.filter (fun r => getField r header "shape_id" == k)).map
          (shapePointOf fl header)) := by
        rw [← hpoints]
        exact sorter.perm sequenceLess _
      refine ⟨hperm, ?_⟩
      intro p hp
      obtain ⟨r, hr, hrp⟩ := List.mem_map.1 (hperm.mem_iff.1 hp)
      rw [← hrp]
      simpa using (List.mem_filter.1 hr).2
    · rw [if_neg (fun h => h.elim (hold k) hk)] at hpoints
      cases hpoints

/-- Witness for C20: two rows of shape `s` and one row with an empty shape id. -/
theorem loadShapes_perm_witness :
    ∃ out, loadShapes intFloat (reversingSorter _) MapRange.stored emptyShapeIdFS
        "data/shapes.csv" NewGTFSData = .ok out ∧
      (∀ k, k ∈ out.Shapes.keys ↔ ∃ r ∈ [["s", "10", "2"], ["", "20", "7"], ["s", "30", "1"]],
        getField r (headerFrom 0 ["shape_id", "shape_pt_lat", "shape_pt_sequence"]
          GoMap.empty) "shape_id" = k) ∧
      (∀ k points, out.Shapes.get k = some points →
        points.Perm (([["s", "10", "2"], ["", "20", "7"], ["s", "30", "1"]].filter
          (fun r => getField r (headerFrom 0 ["shape_id", "shape_pt_lat", "shape_pt_sequence"]
            GoMap.empty) "shape_id" == k)).map
          (shapePointOf intFloat (headerFrom 0 ["shape_id", "shape_pt_lat", "shape_pt_sequence"]
            GoMap.empty))) ∧
        ∀ p ∈ points, p.ShapeID = k) :=
  loadShapes_perm intFloat (reversingSorter _) MapRange.stored emptyShapeIdFS
    "data/shapes.csv" NewGTFSData [["s", "10", "2"], ["", "20", "7"], ["s", "30", "1"]]
    (headerFrom 0 ["shape_id", "shape_pt_lat", "shape_pt_sequence"] GoMap.empty) rfl rfl

theorem loadShapes_empty_id_example :
    (loadShapes intFloat (stableSorter _) MapRange.stored emptyShapeIdFS
        "data/shapes.csv" NewGTFSData).toOption.bind (fun out => out.Shapes.get "")
      = some [⟨"", 20, 0, 7⟩] ∧
    (loadShapes intFloat (stableSorter _) MapRange.stored emptyShapeIdFS
        "data/shapes.csv" NewGTFSData).toOption.bind (fun out => out.Shapes.get "s")
      = some [⟨"s", 30, 0, 1⟩, ⟨"s", 10, 0, 2⟩] := by
  refine ⟨by decide, by decide⟩

end LoadShapesPerm

/-! ## GetStopArrivals -/

section ArrivalsClient

variable {F : Type}

theorem foldl_slice_append {α β : Type} (f : α → β) (l : List α) (init : List β) :
    l.foldl (fun s a => s.append (f a)) (Slice.make init) = Slice.make (init ++ l.map f) := by
  induction l generalizing init with
  | nil => simp
  | cons a l ih =>
    have hstep : (Slice.make init).append (f a) = Slice.make (init ++ [f a]) := rfl
    simp only [List.foldl_cons, List.map_cons]
    rw [hstep, ih]
    simp

/-- C21: given a successfully fetched response, `GetStopArrivals` returns a non-nil slice
with one `StopArrival` per entry of the `RouteList` of the response, in the same order,
whose `ArrivalTime` is the `NextTripArrivalTime` of the entry when that is non-empty and
its `StopArrivalTime` otherwise, and whose `RouteCode`, `RouteName`, `RouteColor`,
`Direction`, `RouteType` and `Headsign` are the `DisplayRouteCode`, `Name`, `RouteColor`,
`Direction`, `RouteType` and `HeadSign` of the entry; for an empty `RouteList` the result
is the empty non-nil slice. -/
theorem GetStopArrivals_spec (c : KentkartClient F) (stopID : String) (lat lon : F)
    (resp : nearestBusResponse) (hfetch : c.getNearestBus stopID lat lon = .ok resp) :
    (∃ arrivals, GetStopArrivals c stopID lat lon = .ok (Slice.make arrivals) ∧
      arrivals.length = resp.RouteList.length ∧
      ∀ (i : Nat) (route : routeInfo), resp.RouteList[i]? = some route →
        ∃ arrival : StopArrival, arrivals[i]? = some arrival ∧
          arrival.ArrivalTime = (if route.NextTripArrivalTime ≠ "" then
            route.NextTripArrivalTime else route.StopArrivalTime) ∧
          arrival.RouteCode = route.DisplayRouteCode ∧
          arrival.RouteName = route.Name ∧
          arrival.RouteColor = route.RouteColor ∧
          arrival.Direction = route.Direction ∧
          arrival.RouteType = route.RouteType ∧
          arrival.Headsign = route.HeadSign) ∧
    (resp.RouteList = [] → GetStopArrivals c stopID lat lon = .ok (Slice.make [])) := by
  have hrun : GetStopArrivals c stopID lat lon = .ok (Slice.make (resp.RouteList.map
      (fun route => ({ RouteCode := route.DisplayRouteCode
                       RouteName := route.Name
                       RouteColor := route.RouteColor
                       Direction := route.Direction
                       RouteType := route.RouteType
                       ArrivalTime :=
                         if route.NextTripArrivalTime == "" then route.StopArrivalTime
                         else route.NextTripArrivalTime
                       Headsign := route.HeadSign } : StopArrival)))) := by
    simp only [GetStopArrivals, hfetch]
    rw [foldl_slice_append, List.nil_append]
  constructor
  · refine ⟨_, hrun, List.length_map _ _, ?_⟩
    intro i route hi
    refine ⟨_, by rw [List.getElem?_map, hi]; rfl, ?_, rfl, rfl, rfl, rfl, rfl, rfl⟩
    by_cases hnext : route.NextTripArrivalTime = ""
    · simp [hnext]
    · simp [hnext]
  · intro hnil
    rw [hrun, hnil]
    rfl

/-- Witness for C21: a response with two routes, the second without a next-trip time. -/
theorem GetStopArrivals_spec_witness :
    (∃ arrivals, GetStopArrivals (fixedClient Int
          ⟨[routeEntry "7" "12:00" "12:30", routeEntry "9" "12:05" ""]⟩) "S1" 10 20
        = .ok (Slice.make arrivals) ∧
      arrivals.length = [routeEntry "7" "12:00" "12:30", routeEntry "9" "12:05" ""].length ∧
      ∀ (i : Nat) (route : routeInfo),
        [routeEntry "7" "12:00" "12:30", routeEntry "9" "12:05" ""][i]? = some route →
        ∃ arrival : StopArrival, arrivals[i]? = some arrival ∧
          arrival.ArrivalTime = (if route.NextTripArrivalTime ≠ "" then
            route.NextTripArrivalTime else route.StopArrivalTime) ∧
          arrival.RouteCode = route.DisplayRouteCode ∧
          arrival.RouteName = route.Name ∧
          arrival.RouteColor = route.RouteColor ∧
          arrival.Direction = route.Direction ∧
          arrival.RouteType = route.RouteType ∧
          arrival.Headsign = route.HeadSign) :=
  (GetStopArrivals_spec (fixedClient Int
    ⟨[routeEntry "7" "12:00" "12:30", routeEntry "9" "12:05" ""]⟩) "S1" 10 20
    ⟨[routeEntry "7" "12:00" "12:30", routeEntry "9" "12:05" ""]⟩ rfl).1

theorem GetStopArrivals_examples :
    (GetStopArrivals (fixedClient Int
        ⟨[routeEntry "7" "12:00" "12:30", routeEntry "9" "12:05" ""]⟩) "S1" 10 20).toOption.map
      (fun arrivals => arrivals.toList.map (fun a => (a.RouteCode, a.ArrivalTime)))
      = some [("7", "12:30"), ("9", "12:05")] ∧
    GetStopArrivals (fixedClient Int ⟨[]⟩) "S1" 10 20 = .ok (Slice.make []) ∧
    (GetStopArrivals (offlineClient Int) "S1" 10 20).toOption = none := by
  refine ⟨by decide, rfl, by decide⟩

end ArrivalsClient

end Transport
